import Mathlib

/-!
# Lending monitor: health evaluation, alert dispatch and event classification

A shallow embedding of the Go programs under `monitoring/` (the alerter, the
monitor, the indexer and the `alert` package), with the properties of their
specification stated and settled against it.

Numbers of the Go standard library are modelled exactly:

* a `big.Float` is a sign, a natural mantissa and a binary exponent together
  with its precision; every operation that rounds does so to nearest, ties to
  even, which is the mode of a zero-value `big.Float`;
* a `float64` is a sign, mantissa and exponent (or an infinity / NaN);
* a `time.Duration` is an integer kept in the signed 64-bit range.
-/

namespace LendingMonitor

/-! ## Binary floating point -/

/-- Fuel-driven bit counter: halves `n` until it vanishes. -/
def bitLenAux : Nat → Nat → Nat
  | 0, _ => 0
  | fuel + 1, n => if n = 0 then 0 else bitLenAux fuel (n / 2) + 1

/-- Number of binary digits of `n` (`big.Int.BitLen`); `bitLen 0 = 0`. -/
def bitLen (n : Nat) : Nat := bitLenAux n n

/-- Numerator of `n * 2^s / d` written as a quotient of naturals. -/
def scaleNum (s : Int) (n : Nat) : Nat := n * 2 ^ s.toNat

/-- Denominator of `n * 2^s / d` written as a quotient of naturals. -/
def scaleDen (s : Int) (d : Nat) : Nat := d * 2 ^ (-s).toNat

/-- Integer nearest to `N / D`, a tie going to the even neighbour. -/
def roundHalfEven (N D : Nat) : Nat :=
  let q := N / D
  let r := N % D
  if 2 * r < D then q
  else if D < 2 * r then q + 1
  else if q % 2 = 0 then q else q + 1

/-- The binary shift `s` for which `n * 2^s / d` has exactly `p` integer bits. -/
def shiftFor (p n d : Nat) : Int :=
  let s1 : Int := (p : Int) - ((bitLen n : Int) - (bitLen d : Int))
  if scaleNum s1 n / scaleDen s1 d < 2 ^ p then s1 else s1 - 1

/-- The quotient `n / d` (both positive) rounded to `p` bits, nearest-even:
the pair `(m, e)` stands for `m * 2^e`. -/
def roundQuo (p n d : Nat) : Nat × Int :=
  let s := shiftFor p n d
  (roundHalfEven (scaleNum s n) (scaleDen s d), -s)

/-- Exact rational value of the dyadic number `m * 2^e`. -/
def val (m : Nat) (e : Int) : ℚ := (m : ℚ) * (2 : ℚ) ^ e

/-- Strict order of two non-negative dyadic numbers `m1 * 2^e1 < m2 * 2^e2`. -/
def dyLt (m1 : Nat) (e1 : Int) (m2 : Nat) (e2 : Int) : Bool :=
  decide (m1 * 2 ^ (e1 - e2).toNat < m2 * 2 ^ (e2 - e1).toNat)

/-- Strict order of two signed dyadic numbers. -/
def sdyLt (n1 : Bool) (m1 : Nat) (e1 : Int) (n2 : Bool) (m2 : Nat) (e2 : Int) : Bool :=
  match n1, n2 with
  | false, false => dyLt m1 e1 m2 e2
  | true, true => dyLt m2 e2 m1 e1
  | true, false => decide (m1 ≠ 0 ∨ m2 ≠ 0)
  | false, true => false

/-- A Go `float64`: a finite `± mant * 2^exp`, an infinity, or NaN. -/
inductive F64 where
  | fin (neg : Bool) (mant : Nat) (exp : Int)
  | inf (neg : Bool)
  | nan
  deriving DecidableEq, Repr

/-- The comparison `a < b` of two `float64` values (false when either is NaN). -/
def F64.lt : F64 → F64 → Bool
  | .fin n1 m1 e1, .fin n2 m2 e2 => sdyLt n1 m1 e1 n2 m2 e2
  | .fin _ _ _, .inf neg => !neg
  | .inf neg, .fin _ _ _ => neg
  | .inf n1, .inf n2 => n1 && !n2
  | _, _ => false

/-- The comparison `a > b` of two `float64` values. -/
def F64.gt (a b : F64) : Bool := F64.lt b a

/-- A positive decimal constant `n / d` converted to `float64`, as the Go
compiler converts an untyped constant: rounded to 53 bits, nearest-even. -/
def F64.ofRatio (n d : Nat) : F64 :=
  let r := roundQuo 53 n d
  .fin false r.1 r.2

/-- A finite `big.Float`: `± mant * 2^exp`, carrying its precision `prec`. -/
structure BigFloat where
  prec : Nat
  neg : Bool
  mant : Nat
  exp : Int
  deriving DecidableEq, Repr

namespace BigFloat

/-- The call `new(big.Float).SetFloat64(x)`: precision 53 and the exact value of `x`.
Only finite arguments occur in the program (the constants 1e18, 1.0, 1.2). -/
def SetFloat64 : F64 → BigFloat
  | .fin neg m e => ⟨53, neg, m, e⟩
  | _ => ⟨53, false, 0, 0⟩

/-- The call `new(big.Float).SetInt(x)`: the precision becomes the larger of
`x.BitLen()` and 64, so the value of `x` is kept exactly. -/
def SetInt (x : Int) : BigFloat :=
  ⟨max (bitLen x.natAbs) 64, decide (x < 0), x.natAbs, 0⟩

/-- The call `z.Quo(x, y)` for a receiver `z` of precision `zprec` and a non-zero `y`:
the quotient rounded to `zprec` bits (to the larger operand precision when
`zprec` is 0). -/
def Quo (zprec : Nat) (x y : BigFloat) : BigFloat :=
  let p := if zprec = 0 then max x.prec y.prec else zprec
  if x.mant = 0 then ⟨p, xor x.neg y.neg, 0, 0⟩
  else
    let r := roundQuo p (scaleNum (x.exp - y.exp) x.mant) (scaleDen (x.exp - y.exp) y.mant)
    ⟨p, xor x.neg y.neg, r.1, r.2⟩

/-- The call `x.Cmp(y)`: -1, 0 or +1, comparing the exact values. -/
def Cmp (x y : BigFloat) : Int :=
  if sdyLt x.neg x.mant x.exp y.neg y.mant y.exp then -1
  else if sdyLt y.neg y.mant y.exp x.neg x.mant x.exp then 1
  else 0

/-- The call `x.Float64()`: the nearest `float64`, with gradual underflow below
`2^-1022` and overflow to an infinity above the largest finite value. -/
def Float64 (x : BigFloat) : F64 :=
  if x.mant = 0 then .fin x.neg 0 0
  else
    let e : Int := (bitLen x.mant : Int) + x.exp - 1
    let p : Int := if e < -1022 then 53 + 1022 + e else 53
    if p < 0 ∨ (p = 0 ∧ x.mant = 2 ^ (bitLen x.mant - 1)) then .fin x.neg 0 0
    else if p = 0 then .fin x.neg 1 (-1074)
    else
      let r := roundQuo p.toNat (scaleNum x.exp x.mant) (scaleDen x.exp 1)
      if (bitLen r.1 : Int) + r.2 - 1 > 1023 then .inf x.neg
      else .fin x.neg r.1 r.2

end BigFloat

/-! ## The `alert` package (`internal/alert/webhook.go`) -/

/-- Equality of fallible results is decidable when it is on both sides. -/
instance instDecidableEqExcept {ε α : Type} [DecidableEq ε] [DecidableEq α] :
    DecidableEq (Except ε α) := fun a b =>
  match a, b with
  | .ok x, .ok y => if h : x = y then isTrue (by rw [h]) else isFalse (fun h2 => h (by cases h2; rfl))
  | .error x, .error y =>
    if h : x = y then isTrue (by rw [h]) else isFalse (fun h2 => h (by cases h2; rfl))
  | .ok _, .error _ => isFalse (fun h => by cases h)
  | .error _, .ok _ => isFalse (fun h => by cases h)

/-- Severity of an alert (`AlertLevel`). -/
inductive AlertLevel where
  | AlertInfo
  | AlertWarning
  | AlertCritical
  deriving DecidableEq, Repr

/-- The string an `AlertLevel` is in Go, which is what the JSON field `level` carries. -/
def AlertLevel.str : AlertLevel → String
  | .AlertInfo => "INFO"
  | .AlertWarning => "WARNING"
  | .AlertCritical => "CRITICAL"

/-- An alert message. `Subject` is the user, feed or asset the message and the
metadata are rendered from; the rendered text and the wall-clock timestamp
are not part of the model. -/
structure Alert where
  Level : AlertLevel
  Title : String
  Subject : String
  deriving DecidableEq, Repr

/-- Why `SendAlert` returned an error. -/
inductive DeliveryError where
  | marshal
  | request
  | transport
  | response (status : Int)
  deriving DecidableEq, Repr

/-- The `Location` header of an HTTP response: missing, present but not a
URL, or naming a target. -/
inductive Location where
  | absent
  | malformed
  | target
  deriving DecidableEq, Repr

/-- One HTTP response: its status code and its `Location` header. -/
structure Response where
  status : Int
  location : Location
  deriving DecidableEq, Repr

/-- The statuses the default `http.Client` treats as redirects of a POST whose
body can be replayed (`redirectBehavior`): 301, 302, 303, 307 and 308. -/
def followsRedirect (status : Int) : Bool :=
  decide (status = 301 ∨ status = 302 ∨ status = 303 ∨ status = 307 ∨ status = 308)

/-- The call `w.client.Do(req)` with the default redirect policy. `chain` holds
the responses the successive requests meet (the sink first, then each redirect
target); a request that finds none fails in the transport. `sent` counts the
requests made before. A redirect status with a `Location` is followed, unless
ten requests have been made; without a `Location` the response is returned. -/
def clientDo (sent : Nat) : List Response → Except DeliveryError Int
  | [] => .error .transport
  | r :: rest =>
    if followsRedirect r.status then
      match r.location with
      | .absent => .ok r.status
      | .malformed => .error .transport
      | .target => if sent + 1 ≥ 10 then .error .transport else clientDo (sent + 1) rest
    else .ok r.status

/-- What the world does with one delivery: JSON serialisation fails, request
construction fails, or the request is sent and meets a chain of responses. -/
inductive SinkOutcome where
  | marshalFails
  | requestFails
  | answers (chain : List Response)
  deriving DecidableEq, Repr

/-- The transport fails on the first request: no response at all. -/
def SinkOutcome.transportFails : SinkOutcome := .answers []

/-- The sink answers the request with `status` and no `Location` header. -/
def SinkOutcome.responds (status : Int) : SinkOutcome := .answers [⟨status, .absent⟩]

/-- The method `WebhookAlerter.SendAlert`: `ctxDone` tells whether the context handed to
the request is already cancelled, in which case `client.Do` fails. The record
"Alert sent" of the success path is part of `alertSteps`. -/
def SendAlert (ctxDone : Bool) (sink : SinkOutcome) (_alert : Alert) : Except DeliveryError Unit :=
  match sink with
  | .marshalFails => .error .marshal
  | .requestFails => .error .request
  | .answers chain =>
    if ctxDone then .error .transport
    else
      match clientDo 0 chain with
      | .error e => .error e
      | .ok status => if status ≥ 300 then .error (.response status) else .ok ()

/-- What one call of an `AlertOn...` method did: the alert it handed to
`SendAlert` (none when it returned early) and the error value it returned. -/
structure Dispatch where
  sent : Option Alert
  result : Except DeliveryError Unit
  deriving DecidableEq, Repr

/-- The level of the alert a call handed to `SendAlert`, if any. -/
def Dispatch.level (d : Dispatch) : Option AlertLevel := d.sent.map Alert.Level

/-- The method `WebhookAlerter.AlertOnLowHealthFactor`. -/
def AlertOnLowHealthFactor (ctxDone : Bool) (sink : SinkOutcome) (user : String)
    (healthFactor : BigFloat) : Dispatch :=
  let one := BigFloat.SetFloat64 (F64.ofRatio 1 1)
  let warningThreshold := BigFloat.SetFloat64 (F64.ofRatio 12 10)
  if healthFactor.Cmp one < 0 then
    let alert : Alert := ⟨.AlertCritical, "낮은 헬스팩터 감지 / Low Health Factor Detected", user⟩
    ⟨some alert, SendAlert ctxDone sink alert⟩
  else if healthFactor.Cmp warningThreshold < 0 then
    let alert : Alert := ⟨.AlertWarning, "낮은 헬스팩터 감지 / Low Health Factor Detected", user⟩
    ⟨some alert, SendAlert ctxDone sink alert⟩
  else ⟨none, .ok ()⟩

/-- A product of two `time.Duration` values wraps into the signed 64-bit range. -/
def wrap64 (x : Int) : Int := (x + 2 ^ 63) % 2 ^ 64 - 2 ^ 63

/-- The values a `time.Duration` (an `int64`) can take. -/
def IsDuration (x : Int) : Prop := -(2 ^ 63) ≤ x ∧ x < 2 ^ 63

instance (x : Int) : Decidable (IsDuration x) := by
  unfold IsDuration; infer_instance

/-- The method `WebhookAlerter.AlertOnOracleStaleness`; durations are nanosecond counts. -/
def AlertOnOracleStaleness (ctxDone : Bool) (sink : SinkOutcome) (feed : String)
    (staleness maxStaleness : Int) : Dispatch :=
  if staleness < maxStaleness then ⟨none, .ok ()⟩
  else
    let level := if staleness > wrap64 (2 * maxStaleness) then AlertLevel.AlertCritical
      else AlertLevel.AlertWarning
    let alert : Alert := ⟨level, "오라클 지연 감지 / Oracle Staleness Detected", feed⟩
    ⟨some alert, SendAlert ctxDone sink alert⟩

/-- The method `WebhookAlerter.AlertOnHighUtilization`. -/
def AlertOnHighUtilization (ctxDone : Bool) (sink : SinkOutcome) (asset : String)
    (utilization : F64) : Dispatch :=
  if F64.lt utilization (F64.ofRatio 9 10) then ⟨none, .ok ()⟩
  else
    let level := if F64.gt utilization (F64.ofRatio 95 100) then AlertLevel.AlertCritical
      else AlertLevel.AlertWarning
    let alert : Alert := ⟨level, "높은 사용률 감지 / High Utilization Detected", asset⟩
    ⟨some alert, SendAlert ctxDone sink alert⟩

/-! ## The alerter and the monitor (`cmd/alerter`, `cmd/monitor`) -/

/-- Modelled from the spec: the result record of `GetUserAccountData` in
`internal/contracts` (a snapshot of total collateral, total debt and health
factor, fixed-point integers scaled by 10^18), held as `*big.Int` values. -/
structure AccountData where
  TotalCollateralBase : Int
  TotalDebtBase : Int
  HealthFactor : Int
  deriving DecidableEq, Repr

/-- The constant `HealthFactorWarning = 1.2` as the `float64` it is compared in. -/
def HealthFactorWarning : F64 := F64.ofRatio 12 10

/-- The constant `HealthFactorCritical = 1.0` as the `float64` it is compared in. -/
def HealthFactorCritical : F64 := F64.ofRatio 1 1

/-- The constant `scale := new(big.Float).SetFloat64(1e18)`. -/
def scale : BigFloat := BigFloat.SetFloat64 (F64.ofRatio 1000000000000000000 1)

/-- The lines `hfFloat := new(big.Float).SetInt(hf); hfFloat.Quo(hfFloat, scale)`. -/
def hfFloatOf (healthFactor : Int) : BigFloat :=
  let hfFloat := BigFloat.SetInt healthFactor
  BigFloat.Quo hfFloat.prec hfFloat scale

/-- The line `hfValue, _ := hfFloat.Float64()`. -/
def hfValueOf (healthFactor : Int) : F64 := (hfFloatOf healthFactor).Float64

/-- One monitored address together with what the world answers while its
iteration runs: the result of `GetUserAccountData`, whether the cycle's
context is cancelled by then, and what the sink does with a delivery. -/
structure Probe where
  addr : String
  fetch : Except String AccountData
  ctxDone : Bool
  sink : SinkOutcome

/-- Severity of a log line. -/
inductive LogLevel where
  | Debug
  | Info
  | Warn
  | Error
  deriving DecidableEq, Repr

/-- The observable steps of a cycle, in the order they happen. -/
inductive Event where
  | fetch (addr : String)
  | log (lvl : LogLevel) (msg : String) (about : String)
  | send (alert : Alert) (result : Except DeliveryError Unit)
  | gauge (addr : String) (value : F64)
  | observe
  deriving DecidableEq, Repr

/-- The steps of one `alerter.AlertOnLowHealthFactor(...)` call site of
`checkAndAlert`: the call of `SendAlert` if the builder makes an alert, the
record "Alert sent" `SendAlert` logs (with the title) when it succeeds, and
the record of a returned error, which is logged and not escalated. -/
def alertSteps (p : Probe) (hfFloat : BigFloat) : List Event :=
  let d := AlertOnLowHealthFactor p.ctxDone p.sink p.addr hfFloat
  (match d.sent with
    | some alert =>
      Event.send alert d.result ::
        (match d.result with
          | .ok _ => [Event.log .Info "Alert sent" alert.Title]
          | .error _ => [])
    | none => []) ++
  (match d.result with
    | .error _ => [Event.log .Error "Failed to send alert" p.addr]
    | .ok _ => [])

/-- The body of the `for` loop of `checkAndAlert` for one address. -/
def checkOne (p : Probe) : List Event :=
  Event.fetch p.addr ::
  match p.fetch with
  | .error _ => [Event.log .Error "Failed to get account data" p.addr]
  | .ok data =>
    if data.TotalDebtBase = 0 then []
    else
      let hfFloat := hfFloatOf data.HealthFactor
      let hfValue := hfFloat.Float64
      if F64.lt hfValue HealthFactorCritical then
        Event.log .Error "CRITICAL: Liquidatable position!" p.addr :: alertSteps p hfFloat
      else if F64.lt hfValue HealthFactorWarning then
        Event.log .Warn "WARNING: Low health factor" p.addr :: alertSteps p hfFloat
      else []

/-- The function `checkAndAlert`: the loop over the monitored addresses. -/
def checkAndAlert : List Probe → List Event
  | [] => []
  | p :: rest => checkOne p ++ checkAndAlert rest

/-- The body of the `for` loop of `monitorCycle` for one address. -/
def monitorOne (webhookURL : String) (p : Probe) : List Event :=
  Event.fetch p.addr ::
  match p.fetch with
  | .error _ => [Event.log .Error "Failed to get account data" p.addr]
  | .ok data =>
    let hfValue := hfValueOf data.HealthFactor
    [Event.gauge p.addr hfValue, Event.log .Info "Position status" p.addr] ++
    (if F64.lt hfValue (F64.ofRatio 12 10) && F64.gt hfValue (.fin false 0 0) && webhookURL != "" then
      [Event.log .Warn "Low health factor detected!" p.addr]
    else [])

/-- The loop of `monitorCycle`. -/
def monitorLoop (webhookURL : String) : List Probe → List Event
  | [] => []
  | p :: rest => monitorOne webhookURL p ++ monitorLoop webhookURL rest

/-- The function `monitorCycle`: the loop, then the deferred observation of the
cycle duration and the closing log line. -/
def monitorCycle (webhookURL : String) (accts : List Probe) : List Event :=
  monitorLoop webhookURL accts ++ [Event.observe, Event.log .Info "Monitor cycle complete" ""]

/-- The addresses for which a trace issued `GetUserAccountData`, in order. -/
def fetches : List Event → List String
  | [] => []
  | .fetch a :: rest => a :: fetches rest
  | _ :: rest => fetches rest

/-- The alerts a trace handed to `SendAlert`, in order. -/
def alertsSent : List Event → List Alert
  | [] => []
  | .send a _ :: rest => a :: alertsSent rest
  | _ :: rest => alertsSent rest

/-- The levels of the alerts a trace handed to `SendAlert`, in order. -/
def levelsSent (tr : List Event) : List AlertLevel := (alertsSent tr).map Alert.Level

/-! ## The indexer (`cmd/indexer`) -/

/-- The four event-signature hashes computed once at start-up
(`crypto.Keccak256Hash` of the canonical signature strings). -/
structure EventSigs where
  supplyEventSig : Nat
  borrowEventSig : Nat
  repayEventSig : Nat
  liquidationEventSig : Nat

/-- A received log (`types.Log`): topics are 32-byte hashes read as numbers. -/
structure Log where
  Topics : List Nat
  BlockNumber : Nat
  TxHash : Nat
  deriving DecidableEq, Repr

/-- A run-time panic of the Go program. -/
inductive Panic where
  | indexOutOfRange (index len : Nat)
  deriving DecidableEq, Repr

/-- What `processLog` reports about a log. -/
inductive DomainEvent where
  | Supply (block tx reserve : Nat)
  | Borrow (block tx reserve : Nat)
  | Repay (block tx reserve : Nat)
  | LiquidationCall (block tx collateralAsset debtAsset user : Nat)
  | Unknown (topic : Nat)
  deriving DecidableEq, Repr

/-- The slice access `topics[i]`, which panics when `i` is out of range. -/
def topicAt (topics : List Nat) (i : Nat) : Except Panic Nat :=
  match topics.get? i with
  | some t => .ok t
  | none => .error (.indexOutOfRange i topics.length)

/-- The call `common.BytesToAddress(h.Bytes())`: the low-order 20 bytes of a hash. -/
def BytesToAddress (h : Nat) : Nat := h % 2 ^ 160

/-- The function `processLog`: `none` for a log without topics (the early
return), otherwise the event reported, or the panic the call dies with. -/
def processLog (sigs : EventSigs) (vLog : Log) : Except Panic (Option DomainEvent) :=
  match vLog.Topics with
  | [] => .ok none
  | t0 :: _ =>
    if t0 = sigs.supplyEventSig then do
      let t1 ← topicAt vLog.Topics 1
      pure (some (.Supply vLog.BlockNumber vLog.TxHash (BytesToAddress t1)))
    else if t0 = sigs.borrowEventSig then do
      let t1 ← topicAt vLog.Topics 1
      pure (some (.Borrow vLog.BlockNumber vLog.TxHash (BytesToAddress t1)))
    else if t0 = sigs.repayEventSig then do
      let t1 ← topicAt vLog.Topics 1
      pure (some (.Repay vLog.BlockNumber vLog.TxHash (BytesToAddress t1)))
    else if t0 = sigs.liquidationEventSig then do
      let t1 ← topicAt vLog.Topics 1
      let t2 ← topicAt vLog.Topics 2
      let t3 ← topicAt vLog.Topics 3
      pure (some (.LiquidationCall vLog.BlockNumber vLog.TxHash
        (BytesToAddress t1) (BytesToAddress t2) (BytesToAddress t3)))
    else pure (some (.Unknown t0))

/-! ## Notions used to state the properties -/

/-- Exact rational value of a `float64` (0 for an infinity or NaN). -/
def F64.toRat : F64 → ℚ
  | .fin neg m e => if neg then -(val m e) else val m e
  | _ => 0

/-- A finite `float64` in the IEEE-754 binary64 format: at most 53 mantissa
bits and an exponent between the smallest subnormal and the largest normal. -/
def F64.IsBinary64 : F64 → Prop
  | .fin _ m e => m < 2 ^ 53 ∧ -1074 ≤ e ∧ e ≤ 971
  | _ => False

/-- The test the code itself applies before it calls the alert builder:
fetched, with debt, and the `float64` comparison `hfValue < HealthFactorWarning`.
This is the program's gate, not the threshold of the specification. -/
def passesGate (p : Probe) : Bool :=
  match p.fetch with
  | .error _ => false
  | .ok data =>
    decide (data.TotalDebtBase ≠ 0) && F64.lt (hfValueOf data.HealthFactor) HealthFactorWarning

/-- The accounts the specification wants an alert for: fetched, with nonzero
debt, and a scaled health factor below 1.2, which on the raw value scaled by
10^18 is `HealthFactor < 1.2 * 10^18`, compared exactly. -/
def belowWarning (p : Probe) : Bool :=
  match p.fetch with
  | .error _ => false
  | .ok data =>
    decide (data.TotalDebtBase ≠ 0) && decide (data.HealthFactor < 1200000000000000000)

/-- The number of topics the case `processLog` takes for a first topic reads:
two for Supply, Borrow and Repay (`Topics[1]`), four for LiquidationCall
(`Topics[3]`), and the first topic alone otherwise. -/
def requiredTopics (sigs : EventSigs) (t0 : Nat) : Nat :=
  if t0 = sigs.supplyEventSig then 2
  else if t0 = sigs.borrowEventSig then 2
  else if t0 = sigs.repayEventSig then 2
  else if t0 = sigs.liquidationEventSig then 4
  else 1

/-- The subjects of the alerts a trace handed to `SendAlert`, in order. -/
def subjectsSent (tr : List Event) : List String := (alertsSent tr).map Alert.Subject

/-- The values `crypto.Keccak256Hash` takes on the four signature strings of
`cmd/indexer/main.go` (Supply, Borrow, Repay, LiquidationCall), as numbers. -/
def aaveSigs : EventSigs where
  supplyEventSig := 0x2b627736bca15cd5381dcf80b0bf11fd197d01a037c52b927a881a10fb73ba61
  borrowEventSig := 0xb3d084820fb1a9decffb176436bd02558d15fac9b0ddfed8c465bc7359d7dce0
  repayEventSig := 0xa534c8dbe71f871f9f3530e97a74601fea17b426cae02e1c5aee42c96c784051
  liquidationEventSig := 0xe413a321e8681d831f4dbccbca790d2952b56f977908e45be37335533e005286

/-- The variant of a reported event, without the fields it carries. -/
inductive Variant where
  | Supply
  | Borrow
  | Repay
  | LiquidationCall
  | Unknown
  deriving DecidableEq, Repr

/-- The variant a reported event belongs to. -/
def DomainEvent.variant : DomainEvent → Variant
  | .Supply _ _ _ => .Supply
  | .Borrow _ _ _ => .Borrow
  | .Repay _ _ _ => .Repay
  | .LiquidationCall _ _ _ _ _ => .LiquidationCall
  | .Unknown _ => .Unknown

/-- The number of observations a trace records into the histogram
`monitor_cycle_duration_seconds`. -/
def observations : List Event → Nat
  | [] => 0
  | .observe :: rest => observations rest + 1
  | _ :: rest => observations rest

/-! ## Theory of the rounding model -/

theorem bitLenAux_zero (fuel : Nat) : bitLenAux fuel 0 = 0 := by
  cases fuel <;> simp [bitLenAux]

theorem bitLenAux_spec (fuel : Nat) : ∀ n : Nat, n ≤ fuel → n ≠ 0 →
    2 ^ (bitLenAux fuel n - 1) ≤ n ∧ n < 2 ^ bitLenAux fuel n := by
  induction fuel with
  | zero => intro n h0 h1; omega
  | succ fuel ih =>
    intro n hle hne
    simp only [bitLenAux, if_neg hne, Nat.add_sub_cancel]
    by_cases h2 : n / 2 = 0
    · rw [h2, bitLenAux_zero]
      have : n = 1 := by omega
      subst this; simp
    · have hfu : n / 2 ≤ fuel := by omega
      obtain ⟨h3, h4⟩ := ih (n / 2) hfu h2
      have hk : 1 ≤ bitLenAux fuel (n / 2) := by
        rcases Nat.eq_zero_or_pos (bitLenAux fuel (n / 2)) with h | h
        · rw [h] at h4; simp at h4; omega
        · exact h
      obtain ⟨k, hk2⟩ : ∃ k, bitLenAux fuel (n / 2) = k + 1 := ⟨_, (Nat.sub_add_cancel hk).symm⟩
      rw [hk2] at h3 h4 ⊢
      simp only [Nat.add_sub_cancel] at h3
      rw [pow_succ] at h4 ⊢
      constructor <;> omega

theorem bitLen_spec (n : Nat) (hne : n ≠ 0) : 2 ^ (bitLen n - 1) ≤ n ∧ n < 2 ^ bitLen n :=
  bitLenAux_spec n n (le_refl n) hne

theorem bitLen_pos (n : Nat) (hne : n ≠ 0) : 1 ≤ bitLen n := by
  rcases Nat.eq_zero_or_pos (bitLen n) with h | h
  · have := (bitLen_spec n hne).2
    rw [h] at this; simp at this; omega
  · exact h

theorem scale_ratio (s : Int) (n d : Nat) :
    (scaleNum s n : ℚ) / (scaleDen s d : ℚ) = (n : ℚ) / (d : ℚ) * (2 : ℚ) ^ s := by
  unfold scaleNum scaleDen
  rcases le_or_lt 0 s with h | h
  · obtain ⟨k, rfl⟩ := Int.eq_ofNat_of_zero_le h
    have h2 : (-(k : Int)).toNat = 0 := by omega
    simp only [Int.toNat_ofNat, h2, pow_zero, mul_one, Nat.cast_mul, Nat.cast_pow, Nat.cast_ofNat,
      zpow_natCast]
    ring
  · obtain ⟨k, hk⟩ : ∃ k : Nat, s = -(k : Int) := ⟨(-s).toNat, by omega⟩
    subst hk
    have h2 : (-(k : Int)).toNat = 0 := by omega
    simp only [h2, neg_neg, Int.toNat_ofNat, pow_zero, mul_one, Nat.cast_mul, Nat.cast_pow,
      Nat.cast_ofNat, zpow_neg, zpow_natCast]
    field_simp

theorem scaleDen_pos (s : Int) (d : Nat) (hd : 0 < d) : 0 < scaleDen s d := by
  unfold scaleDen; positivity
theorem div_le_roundHalfEven (N D : Nat) : N / D ≤ roundHalfEven N D := by
  unfold roundHalfEven
  simp only
  split_ifs <;> omega

theorem roundHalfEven_le_succ (N D : Nat) : roundHalfEven N D ≤ N / D + 1 := by
  unfold roundHalfEven
  simp only
  split_ifs <;> omega

theorem roundHalfEven_ge (N D K : Nat) (hD : 0 < D) (h : K * D ≤ N) : K ≤ roundHalfEven N D :=
  le_trans ((Nat.le_div_iff_mul_le hD).2 h) (div_le_roundHalfEven N D)

theorem roundHalfEven_le (N D K : Nat) (hD : 0 < D) (h : N ≤ K * D) : roundHalfEven N D ≤ K := by
  have hq : N / D ≤ K := Nat.div_le_of_le_mul (by rw [Nat.mul_comm]; exact h)
  rcases Nat.lt_or_ge (N / D) K with h1 | h1
  · exact le_trans (roundHalfEven_le_succ N D) h1
  · have hqK : N / D = K := le_antisymm hq h1
    have h2 : N / D * D ≤ N := Nat.div_mul_le_self N D
    rw [hqK] at h2
    have hN : N = K * D := le_antisymm h h2
    have hr : N % D = 0 := by rw [hN]; exact Nat.mul_mod_left K D
    unfold roundHalfEven
    simp only [hr, Nat.mul_zero, hD, if_true, hqK, le_refl]

/-- Comparison of a quotient of naturals with a natural, read in `ℚ`. -/
theorem nat_le_ratio (N D K : Nat) (hD : 0 < D) : ((K : ℚ) ≤ (N : ℚ) / D) ↔ K * D ≤ N := by
  have hD2 : (0 : ℚ) < D := by exact_mod_cast hD
  rw [le_div_iff₀ hD2]
  exact_mod_cast Iff.rfl

theorem ratio_le_nat (N D K : Nat) (hD : 0 < D) : ((N : ℚ) / D ≤ (K : ℚ)) ↔ N ≤ K * D := by
  have hD2 : (0 : ℚ) < D := by exact_mod_cast hD
  rw [div_le_iff₀ hD2]
  exact_mod_cast Iff.rfl

theorem ratio_lt_nat (N D K : Nat) (hD : 0 < D) : ((N : ℚ) / D < (K : ℚ)) ↔ N < K * D := by
  have hD2 : (0 : ℚ) < D := by exact_mod_cast hD
  rw [div_lt_iff₀ hD2]
  exact_mod_cast Iff.rfl

theorem two_zpow_pos (e : Int) : (0 : ℚ) < (2 : ℚ) ^ e := by positivity

/-- The shift chosen by `shiftFor` puts the scaled quotient in `[2^(p-1), 2^p)`. -/
theorem shiftFor_spec (p n d : Nat) (hn : 0 < n) (hd : 0 < d) :
    (2 : ℚ) ^ (p - 1 : Int) ≤ (n : ℚ) / d * 2 ^ shiftFor p n d ∧
    (n : ℚ) / d * 2 ^ shiftFor p n d < (2 : ℚ) ^ (p : Int) := by
  have hn0 : n ≠ 0 := by omega
  have hd0 : d ≠ 0 := by omega
  obtain ⟨ha1, ha2⟩ := bitLen_spec n hn0
  obtain ⟨hb1, hb2⟩ := bitLen_spec d hd0
  have hap := bitLen_pos n hn0
  have hbp := bitLen_pos d hd0
  have hnq : (0 : ℚ) < n := by exact_mod_cast hn
  have hdq : (0 : ℚ) < d := by exact_mod_cast hd
  -- bounds in ℚ with integer exponents
  have ha1q : (2 : ℚ) ^ ((bitLen n : Int) - 1) ≤ n := by
    have : ((2 ^ (bitLen n - 1) : Nat) : ℚ) ≤ n := by exact_mod_cast ha1
    have e : ((bitLen n : Int) - 1) = ((bitLen n - 1 : Nat) : Int) := by omega
    rw [e, zpow_natCast]; exact_mod_cast this
  have ha2q : (n : ℚ) < (2 : ℚ) ^ (bitLen n : Int) := by
    rw [zpow_natCast]; exact_mod_cast ha2
  have hb1q : (2 : ℚ) ^ ((bitLen d : Int) - 1) ≤ d := by
    have : ((2 ^ (bitLen d - 1) : Nat) : ℚ) ≤ d := by exact_mod_cast hb1
    have e : ((bitLen d : Int) - 1) = ((bitLen d - 1 : Nat) : Int) := by omega
    rw [e, zpow_natCast]; exact_mod_cast this
  have hb2q : (d : ℚ) < (2 : ℚ) ^ (bitLen d : Int) := by
    rw [zpow_natCast]; exact_mod_cast hb2
  set s1 : Int := (p : Int) - ((bitLen n : Int) - (bitLen d : Int)) with hs1
  -- the candidate shift puts the quotient in (2^(p-1), 2^(p+1))
  have hlow : (2 : ℚ) ^ (p - 1 : Int) < (n : ℚ) / d * 2 ^ s1 := by
    have h1 : (2 : ℚ) ^ (p - 1 : Int) = 2 ^ ((bitLen n : Int) - 1) / 2 ^ (bitLen d : Int) * 2 ^ s1 := by
      rw [← zpow_sub₀ (by norm_num : (2 : ℚ) ≠ 0), ← zpow_add₀ (by norm_num : (2 : ℚ) ≠ 0)]
      congr 1; omega
    rw [h1]
    apply mul_lt_mul_of_pos_right _ (two_zpow_pos s1)
    calc (2 : ℚ) ^ ((bitLen n : Int) - 1) / 2 ^ (bitLen d : Int)
        ≤ n / 2 ^ (bitLen d : Int) := by
          apply div_le_div_of_nonneg_right ha1q (le_of_lt (two_zpow_pos _))
      _ < n / d := by
          apply div_lt_div_of_pos_left hnq hdq hb2q
  have hhigh : (n : ℚ) / d * 2 ^ s1 < (2 : ℚ) ^ (p + 1 : Int) := by
    have h1 : (2 : ℚ) ^ (p + 1 : Int) = 2 ^ (bitLen n : Int) / 2 ^ ((bitLen d : Int) - 1) * 2 ^ s1 := by
      rw [← zpow_sub₀ (by norm_num : (2 : ℚ) ≠ 0), ← zpow_add₀ (by norm_num : (2 : ℚ) ≠ 0)]
      congr 1; omega
    rw [h1]
    apply mul_lt_mul_of_pos_right _ (two_zpow_pos s1)
    calc (n : ℚ) / d ≤ n / 2 ^ ((bitLen d : Int) - 1) := by
          apply div_le_div_of_nonneg_left (le_of_lt hnq) (two_zpow_pos _) hb1q
      _ < 2 ^ (bitLen n : Int) / 2 ^ ((bitLen d : Int) - 1) := by
          apply div_lt_div_of_pos_right ha2q (two_zpow_pos _)
  have hD1 : 0 < scaleDen s1 d := scaleDen_pos s1 d hd
  unfold shiftFor
  simp only
  rw [← hs1]
  split_ifs with hq
  · refine ⟨le_of_lt hlow, ?_⟩
    rw [← scale_ratio]
    have hq2 : scaleNum s1 n < 2 ^ p * scaleDen s1 d := by
      rw [Nat.div_lt_iff_lt_mul hD1] at hq; exact hq
    have := (ratio_lt_nat (scaleNum s1 n) (scaleDen s1 d) (2 ^ p) hD1).2 hq2
    rw [zpow_natCast]; exact_mod_cast this
  · have hq2 : 2 ^ p * scaleDen s1 d ≤ scaleNum s1 n := by
      rw [Nat.div_lt_iff_lt_mul hD1] at hq; omega
    have h3 := (nat_le_ratio (scaleNum s1 n) (scaleDen s1 d) (2 ^ p) hD1).2 hq2
    rw [scale_ratio] at h3
    have h4 : (2 : ℚ) ^ (s1 - 1) = 2 ^ s1 / 2 := by
      rw [zpow_sub₀ (by norm_num : (2 : ℚ) ≠ 0)]; simp
    have h5 : (2 : ℚ) ^ (p - 1 : Int) = 2 ^ (p : Int) / 2 := by
      rw [zpow_sub₀ (by norm_num : (2 : ℚ) ≠ 0)]; simp
    have h6 : (2 : ℚ) ^ (p + 1 : Int) = 2 ^ (p : Int) * 2 := by
      rw [zpow_add₀ (by norm_num : (2 : ℚ) ≠ 0)]; simp
    have h7 : ((2 ^ p : Nat) : ℚ) = (2 : ℚ) ^ (p : Int) := by
      rw [zpow_natCast]; norm_cast
    rw [h7] at h3
    rw [h6] at hhigh
    rw [h4, h5]
    constructor
    · linarith
    · linarith
theorem val_nonneg (m : Nat) (e : Int) : 0 ≤ val m e := by
  unfold val; positivity

/-- The product `k * 2^t` for a non-negative exponent is a natural number. -/
theorem val_nat (k : Nat) (t : Int) (ht : 0 ≤ t) : ((k * 2 ^ t.toNat : Nat) : ℚ) = (k : ℚ) * 2 ^ t := by
  obtain ⟨j, rfl⟩ := Int.eq_ofNat_of_zero_le ht
  simp [zpow_natCast]

theorem roundQuo_mant_ge (p n d : Nat) (hn : 0 < n) (hd : 0 < d) (hp : 1 ≤ p) :
    2 ^ (p - 1) ≤ (roundQuo p n d).1 := by
  have hs := (shiftFor_spec p n d hn hd).1
  have hD := scaleDen_pos (shiftFor p n d) d hd
  unfold roundQuo
  simp only
  apply roundHalfEven_ge _ _ _ hD
  rw [← scale_ratio] at hs
  have e : ((p : Int) - 1) = ((p - 1 : Nat) : Int) := by omega
  rw [e, zpow_natCast] at hs
  have h2 : (((2 ^ (p - 1) : Nat)) : ℚ) ≤ (scaleNum (shiftFor p n d) n : ℚ) / scaleDen (shiftFor p n d) d := by
    push_cast; exact hs
  exact (nat_le_ratio _ _ _ hD).1 h2

/-- Rounding never crosses a number representable in `p` bits, from below. -/
theorem roundQuo_le (p n d k : Nat) (f : Int) (hn : 0 < n) (hd : 0 < d)
    (hk : k < 2 ^ p) (h : (n : ℚ) / d ≤ val k f) :
    val (roundQuo p n d).1 (roundQuo p n d).2 ≤ val k f := by
  have hs := (shiftFor_spec p n d hn hd).1
  have hD := scaleDen_pos (shiftFor p n d) d hd
  set s := shiftFor p n d with hsdef
  have hX : (scaleNum s n : ℚ) / scaleDen s d ≤ (k : ℚ) * 2 ^ (f + s) := by
    rw [scale_ratio, zpow_add₀ (by norm_num : (2 : ℚ) ≠ 0), ← mul_assoc]
    exact mul_le_mul_of_nonneg_right h (le_of_lt (two_zpow_pos s))
  have hval : val (roundQuo p n d).1 (roundQuo p n d).2 =
      (roundHalfEven (scaleNum s n) (scaleDen s d) : ℚ) * 2 ^ (-s) := rfl
  rw [hval]
  rcases le_or_lt 0 (f + s) with hfs | hfs
  · rw [← val_nat k (f + s) hfs] at hX
    have h1 := (ratio_le_nat _ _ _ hD).1 hX
    have h2 := roundHalfEven_le _ _ _ hD h1
    have h3 : (roundHalfEven (scaleNum s n) (scaleDen s d) : ℚ) ≤ ((k * 2 ^ (f + s).toNat : Nat) : ℚ) := by
      exact_mod_cast h2
    rw [val_nat k (f + s) hfs] at h3
    have h4 := mul_le_mul_of_nonneg_right h3 (le_of_lt (two_zpow_pos (-s)))
    have h5 : (k : ℚ) * 2 ^ (f + s) * 2 ^ (-s) = val k f := by
      unfold val
      rw [mul_assoc, ← zpow_add₀ (by norm_num : (2 : ℚ) ≠ 0)]
      congr 2; omega
    rw [h5] at h4; exact h4
  · exfalso
    rw [scale_ratio] at hX
    have h1 : (2 : ℚ) ^ (f + s) ≤ 2 ^ (-1 : Int) :=
      zpow_le_zpow_right₀ (by norm_num) (by omega)
    have h2 : (k : ℚ) < 2 ^ (p : Int) := by
      rw [zpow_natCast]; exact_mod_cast hk
    have h3 : (2 : ℚ) ^ (p - 1 : Int) = 2 ^ (p : Int) * 2 ^ (-1 : Int) := by
      rw [← zpow_add₀ (by norm_num : (2 : ℚ) ≠ 0)]; congr 1
    have h4 : (k : ℚ) * 2 ^ (f + s) < 2 ^ (p : Int) * 2 ^ (-1 : Int) := by
      calc (k : ℚ) * 2 ^ (f + s) ≤ k * 2 ^ (-1 : Int) :=
            mul_le_mul_of_nonneg_left h1 (by positivity)
        _ < 2 ^ (p : Int) * 2 ^ (-1 : Int) :=
            mul_lt_mul_of_pos_right h2 (two_zpow_pos _)
    rw [← h3] at h4
    linarith

/-- Rounding never crosses a number representable in `p` bits, from above. -/
theorem roundQuo_ge (p n d k : Nat) (f : Int) (hn : 0 < n) (hd : 0 < d) (hp : 1 ≤ p)
    (hk : k < 2 ^ p) (h : val k f ≤ (n : ℚ) / d) :
    val k f ≤ val (roundQuo p n d).1 (roundQuo p n d).2 := by
  have hD := scaleDen_pos (shiftFor p n d) d hd
  have hm := roundQuo_mant_ge p n d hn hd hp
  set s := shiftFor p n d with hsdef
  have hX : (k : ℚ) * 2 ^ (f + s) ≤ (scaleNum s n : ℚ) / scaleDen s d := by
    rw [scale_ratio, zpow_add₀ (by norm_num : (2 : ℚ) ≠ 0), ← mul_assoc]
    exact mul_le_mul_of_nonneg_right h (le_of_lt (two_zpow_pos s))
  have hval : val (roundQuo p n d).1 (roundQuo p n d).2 =
      (roundHalfEven (scaleNum s n) (scaleDen s d) : ℚ) * 2 ^ (-s) := rfl
  have hm2 : 2 ^ (p - 1) ≤ roundHalfEven (scaleNum s n) (scaleDen s d) := hm
  rw [hval]
  have h5 : (k : ℚ) * 2 ^ (f + s) * 2 ^ (-s) = val k f := by
    unfold val
    rw [mul_assoc, ← zpow_add₀ (by norm_num : (2 : ℚ) ≠ 0)]
    congr 2; omega
  rw [← h5]
  apply mul_le_mul_of_nonneg_right _ (le_of_lt (two_zpow_pos (-s)))
  rcases le_or_lt 0 (f + s) with hfs | hfs
  · rw [← val_nat k (f + s) hfs] at hX ⊢
    have h1 := (nat_le_ratio _ _ _ hD).1 hX
    have h2 := roundHalfEven_ge _ _ _ hD h1
    exact_mod_cast h2
  · have h1 : (2 : ℚ) ^ (f + s) ≤ 2 ^ (-1 : Int) :=
      zpow_le_zpow_right₀ (by norm_num) (by omega)
    have h2 : (k : ℚ) < 2 ^ (p : Int) := by
      rw [zpow_natCast]; exact_mod_cast hk
    have h3 : (2 : ℚ) ^ (p - 1 : Int) = 2 ^ (p : Int) * 2 ^ (-1 : Int) := by
      rw [← zpow_add₀ (by norm_num : (2 : ℚ) ≠ 0)]; congr 1
    have h4 : (k : ℚ) * 2 ^ (f + s) < 2 ^ (p : Int) * 2 ^ (-1 : Int) := by
      calc (k : ℚ) * 2 ^ (f + s) ≤ k * 2 ^ (-1 : Int) :=
            mul_le_mul_of_nonneg_left h1 (by positivity)
        _ < 2 ^ (p : Int) * 2 ^ (-1 : Int) :=
            mul_lt_mul_of_pos_right h2 (two_zpow_pos _)
    rw [← h3] at h4
    have h6 : ((2 ^ (p - 1) : Nat) : ℚ) ≤ roundHalfEven (scaleNum s n) (scaleDen s d) := by
      exact_mod_cast hm2
    have e : ((p : Int) - 1) = ((p - 1 : Nat) : Int) := by omega
    rw [e, zpow_natCast] at h4
    push_cast at h6
    linarith

/-- The order test `dyLt` decides the order of the exact values. -/
theorem dyLt_iff (m1 : Nat) (e1 : Int) (m2 : Nat) (e2 : Int) :
    dyLt m1 e1 m2 e2 = true ↔ val m1 e1 < val m2 e2 := by
  unfold dyLt val
  rw [decide_eq_true_iff]
  have key : ∀ (a b : Nat) (x y : Int), ((a * 2 ^ (x - y).toNat : Nat) : ℚ) * 2 ^ (min x y) = a * 2 ^ x := by
    intro a b x y
    rcases le_or_lt y x with h | h
    · rw [val_nat a (x - y) (by omega), min_eq_right h, mul_assoc,
        ← zpow_add₀ (by norm_num : (2 : ℚ) ≠ 0)]
      congr 2; omega
    · have h0 : (x - y).toNat = 0 := by omega
      rw [h0, min_eq_left (le_of_lt h)]; simp
  have hpos := two_zpow_pos (min e1 e2)
  rw [← key m1 m2 e1 e2, ← key m2 m1 e2 e1, min_comm e2 e1, mul_lt_mul_right hpos]
  exact_mod_cast Iff.rfl

/-! ## The health-factor quotient -/

theorem scale_eq : scale = ⟨53, false, 7812500000000000, 7⟩ := by decide

theorem HealthFactorWarning_eq : HealthFactorWarning = .fin false 5404319552844595 (-52) := by
  decide

theorem HealthFactorCritical_eq : HealthFactorCritical = .fin false 4503599627370496 (-52) := by
  decide

theorem scaleNum_neg7 (n : Nat) : scaleNum (0 - 7) n = n := by
  simp [scaleNum]

theorem scaleDen_neg7 : scaleDen (0 - 7) 7812500000000000 = 1000000000000000000 := by
  decide

/-- The quotient of a positive raw health factor: the raw value over 10^18,
rounded to `max (bitLen n) 64` bits. -/
theorem hfFloatOf_pos (n : Nat) (hn : n ≠ 0) :
    hfFloatOf (n : Int) = ⟨max (bitLen n) 64, false,
      (roundQuo (max (bitLen n) 64) n 1000000000000000000).1,
      (roundQuo (max (bitLen n) 64) n 1000000000000000000).2⟩ := by
  have hp : max (bitLen n) 64 ≠ 0 := by omega
  have hlt : ¬ ((n : Int) < 0) := by omega
  unfold hfFloatOf BigFloat.SetInt BigFloat.Quo
  rw [scale_eq]
  simp only [Int.natAbs_ofNat, hp, if_false, hn, scaleNum_neg7, scaleDen_neg7, hlt,
    decide_False, Bool.xor_false]

theorem hfFloatOf_neg (r : Int) (hr : r < 0) :
    (hfFloatOf r).neg = true ∧ (hfFloatOf r).mant ≠ 0 := by
  have hn : r.natAbs ≠ 0 := by omega
  have hp : max (bitLen r.natAbs) 64 ≠ 0 := by omega
  have hpos : 0 < r.natAbs := by omega
  have hm := roundQuo_mant_ge (max (bitLen r.natAbs) 64) r.natAbs 1000000000000000000 hpos
    (by norm_num) (by omega)
  have h2 : 0 < 2 ^ (max (bitLen r.natAbs) 64 - 1) := by positivity
  unfold hfFloatOf BigFloat.SetInt BigFloat.Quo
  rw [scale_eq]
  simp only [hp, if_false, hn, scaleNum_neg7, scaleDen_neg7, hr, decide_True, Bool.xor_false]
  exact ⟨trivial, by omega⟩

theorem hfFloat_le (n k : Nat) (f : Int) (hn : n ≠ 0) (hk : k < 2 ^ 64)
    (h : (n : ℚ) / 1000000000000000000 ≤ val k f) :
    val (hfFloatOf (n : Int)).mant (hfFloatOf (n : Int)).exp ≤ val k f := by
  rw [hfFloatOf_pos n hn]
  have hk2 : k < 2 ^ max (bitLen n) 64 :=
    lt_of_lt_of_le hk (Nat.pow_le_pow_right (by norm_num) (le_max_right _ _))
  have := roundQuo_le (max (bitLen n) 64) n 1000000000000000000 k f (by omega) (by norm_num) hk2
    (by exact_mod_cast h)
  exact this

theorem hfFloat_ge (n k : Nat) (f : Int) (hn : n ≠ 0) (hk : k < 2 ^ 64)
    (h : val k f ≤ (n : ℚ) / 1000000000000000000) :
    val k f ≤ val (hfFloatOf (n : Int)).mant (hfFloatOf (n : Int)).exp := by
  rw [hfFloatOf_pos n hn]
  have hk2 : k < 2 ^ max (bitLen n) 64 :=
    lt_of_lt_of_le hk (Nat.pow_le_pow_right (by norm_num) (le_max_right _ _))
  have := roundQuo_ge (max (bitLen n) 64) n 1000000000000000000 k f (by omega) (by norm_num)
    (by omega) hk2 (by exact_mod_cast h)
  exact this

theorem hfFloat_mant_ne (n : Nat) (hn : n ≠ 0) : (hfFloatOf (n : Int)).mant ≠ 0 := by
  rw [hfFloatOf_pos n hn]
  have hm := roundQuo_mant_ge (max (bitLen n) 64) n 1000000000000000000 (by omega)
    (by norm_num) (by omega)
  have h2 : 0 < 2 ^ (max (bitLen n) 64 - 1) := by positivity
  simp only
  omega

theorem hfFloat_sign (n : Nat) (hn : n ≠ 0) : (hfFloatOf (n : Int)).neg = false := by
  rw [hfFloatOf_pos n hn]
/-! ## Conversion to `float64` -/

theorem val_lt_pow_bitLen (m : Nat) (e : Int) (hm : m ≠ 0) :
    val m e < (2 : ℚ) ^ ((bitLen m : Int) + e) := by
  have h := (bitLen_spec m hm).2
  have h2 : (m : ℚ) < (2 : ℚ) ^ (bitLen m : Int) := by
    rw [zpow_natCast]; exact_mod_cast h
  unfold val
  rw [zpow_add₀ (by norm_num : (2 : ℚ) ≠ 0)]
  exact mul_lt_mul_of_pos_right h2 (two_zpow_pos e)

theorem pow_bitLen_le_val (m : Nat) (e : Int) (hm : m ≠ 0) :
    (2 : ℚ) ^ ((bitLen m : Int) + e - 1) ≤ val m e := by
  have h := (bitLen_spec m hm).1
  have hp := bitLen_pos m hm
  have h2 : (2 : ℚ) ^ ((bitLen m : Int) - 1) ≤ (m : ℚ) := by
    have e2 : ((bitLen m : Int) - 1) = ((bitLen m - 1 : Nat) : Int) := by omega
    rw [e2, zpow_natCast]; exact_mod_cast h
  unfold val
  have e3 : (bitLen m : Int) + e - 1 = ((bitLen m : Int) - 1) + e := by ring
  rw [e3, zpow_add₀ (by norm_num : (2 : ℚ) ≠ 0)]
  exact mul_le_mul_of_nonneg_right h2 (le_of_lt (two_zpow_pos e))

theorem scale_one_ratio (m : Nat) (e : Int) :
    ((scaleNum e m : Nat) : ℚ) / ((scaleDen e 1 : Nat) : ℚ) = val m e := by
  rw [scale_ratio]; simp [val]

theorem scaleNum_pos (s : Int) (n : Nat) (hn : 0 < n) : 0 < scaleNum s n := by
  unfold scaleNum; positivity

/-- In the normal range `Float64` is a rounding to 53 bits. -/
theorem Float64_normal (x : BigFloat) (hm : x.mant ≠ 0)
    (hlow : (2 : ℚ) ^ (-1022 : Int) ≤ val x.mant x.exp) :
    x.Float64 =
      if ((bitLen (roundQuo 53 (scaleNum x.exp x.mant) (scaleDen x.exp 1)).1 : Int) +
          (roundQuo 53 (scaleNum x.exp x.mant) (scaleDen x.exp 1)).2 - 1 > 1023)
      then .inf x.neg
      else .fin x.neg (roundQuo 53 (scaleNum x.exp x.mant) (scaleDen x.exp 1)).1
        (roundQuo 53 (scaleNum x.exp x.mant) (scaleDen x.exp 1)).2 := by
  have h1 := val_lt_pow_bitLen x.mant x.exp hm
  have h2 : (2 : ℚ) ^ (-1022 : Int) < (2 : ℚ) ^ ((bitLen x.mant : Int) + x.exp) :=
    lt_of_le_of_lt hlow h1
  have h3 : (-1022 : Int) < (bitLen x.mant : Int) + x.exp :=
    (zpow_lt_zpow_iff_right₀ (by norm_num : (1 : ℚ) < 2)).1 h2
  have h4 : ¬ ((bitLen x.mant : Int) + x.exp - 1 < -1022) := by omega
  unfold BigFloat.Float64
  have h53 : Int.toNat 53 = 53 := rfl
  simp only [hm, if_false, h4]
  norm_num [h53]

theorem Float64_le (x : BigFloat) (k : Nat) (f : Int) (hm : x.mant ≠ 0)
    (hlow : (2 : ℚ) ^ (-1022 : Int) ≤ val x.mant x.exp) (hk : k < 2 ^ 53)
    (h : val x.mant x.exp ≤ val k f) (hc : val k f < (2 : ℚ) ^ (1024 : Int)) :
    ∃ m e, x.Float64 = .fin x.neg m e ∧ val m e ≤ val k f := by
  have hN : 0 < scaleNum x.exp x.mant := scaleNum_pos _ _ (by omega)
  have hD : 0 < scaleDen x.exp 1 := scaleDen_pos _ _ (by norm_num)
  have hr := roundQuo_le 53 (scaleNum x.exp x.mant) (scaleDen x.exp 1) k f hN hD hk
    (by rw [scale_one_ratio]; exact h)
  have hmr := roundQuo_mant_ge 53 (scaleNum x.exp x.mant) (scaleDen x.exp 1) hN hD (by norm_num)
  have hne : (roundQuo 53 (scaleNum x.exp x.mant) (scaleDen x.exp 1)).1 ≠ 0 := by
    have : 0 < 2 ^ (53 - 1) := by norm_num
    omega
  have h5 := pow_bitLen_le_val _ (roundQuo 53 (scaleNum x.exp x.mant) (scaleDen x.exp 1)).2 hne
  have h6 := lt_of_le_of_lt (le_trans h5 hr) hc
  have h7 := (zpow_lt_zpow_iff_right₀ (by norm_num : (1 : ℚ) < 2)).1 h6
  refine ⟨_, _, ?_, hr⟩
  rw [Float64_normal x hm hlow, if_neg (by omega)]

theorem Float64_ge (x : BigFloat) (k : Nat) (f : Int) (hm : x.mant ≠ 0)
    (hlow : (2 : ℚ) ^ (-1022 : Int) ≤ val x.mant x.exp) (hk : k < 2 ^ 53)
    (h : val k f ≤ val x.mant x.exp) :
    x.Float64 = .inf x.neg ∨ ∃ m e, x.Float64 = .fin x.neg m e ∧ val k f ≤ val m e := by
  have hN : 0 < scaleNum x.exp x.mant := scaleNum_pos _ _ (by omega)
  have hD : 0 < scaleDen x.exp 1 := scaleDen_pos _ _ (by norm_num)
  have hr := roundQuo_ge 53 (scaleNum x.exp x.mant) (scaleDen x.exp 1) k f hN hD (by norm_num) hk
    (by rw [scale_one_ratio]; exact h)
  rw [Float64_normal x hm hlow]
  split_ifs with hov
  · exact Or.inl rfl
  · exact Or.inr ⟨_, _, rfl, hr⟩

/-- The quotient of a positive raw value is far above the subnormal range. -/
theorem hfFloat_normal (n : Nat) (hn : n ≠ 0) :
    (2 : ℚ) ^ (-1022 : Int) ≤ val (hfFloatOf (n : Int)).mant (hfFloatOf (n : Int)).exp := by
  have h1 : val 1 (-60) ≤ (n : ℚ) / 1000000000000000000 := by
    have hn1 : (1 : ℚ) ≤ n := by exact_mod_cast Nat.one_le_iff_ne_zero.2 hn
    unfold val
    rw [le_div_iff₀ (by norm_num)]
    norm_num
    linarith
  have h2 := hfFloat_ge n 1 (-60) hn (by norm_num) h1
  have h3 : (2 : ℚ) ^ (-1022 : Int) ≤ val 1 (-60) := by
    unfold val
    rw [Nat.cast_one, one_mul]
    exact zpow_le_zpow_right₀ (by norm_num) (by norm_num)
  exact le_trans h3 h2
/-! ## Thresholds of the two comparisons, in terms of the raw value -/

theorem hfFloatOf_zero : hfFloatOf 0 = ⟨64, false, 0, 0⟩ := by decide

theorem val_one : val 4503599627370496 (-52) = 1 := by
  unfold val; norm_num

theorem val_warn : val 5404319552844595 (-52) = 5404319552844595 / 4503599627370496 := by
  unfold val; norm_num

/-- The `big.Float` comparison with 1.0 is exact on the raw value. -/
theorem builder_crit_iff (n : Nat) :
    sdyLt (hfFloatOf (n : Int)).neg (hfFloatOf (n : Int)).mant (hfFloatOf (n : Int)).exp
      false 4503599627370496 (-52) = true ↔ n < 1000000000000000000 := by
  rcases Nat.eq_zero_or_pos n with h0 | h0
  · subst h0
    simp only [Nat.cast_zero, hfFloatOf_zero]
    decide
  · have hn : n ≠ 0 := by omega
    rw [hfFloat_sign n hn]
    show dyLt _ _ _ _ = true ↔ _
    rw [dyLt_iff, val_one]
    constructor
    · intro h
      by_contra hge
      have h1 : val 4503599627370496 (-52) ≤ (n : ℚ) / 1000000000000000000 := by
        rw [val_one, le_div_iff₀ (by norm_num)]
        have : (1000000000000000000 : ℚ) ≤ n := by exact_mod_cast (not_lt.1 hge)
        linarith
      have h2 := hfFloat_ge n 4503599627370496 (-52) hn (by norm_num) h1
      rw [val_one] at h2
      linarith
    · intro h
      have h1 : (n : ℚ) / 1000000000000000000 ≤ val 18446744073709551615 (-64) := by
        unfold val
        rw [div_le_iff₀ (by norm_num)]
        have : (n : ℚ) ≤ 999999999999999999 := by exact_mod_cast Nat.le_of_lt_succ h
        norm_num
        linarith
      have h2 := hfFloat_le n 18446744073709551615 (-64) hn (by norm_num) h1
      have h3 : val 18446744073709551615 (-64) < 1 := by
        unfold val; norm_num
      linarith

/-- Below its threshold the `big.Float` comparison with `float64` 1.2 succeeds. -/
theorem builder_warn_of_le (n : Nat) (h : n ≤ 1199999999999999955) :
    sdyLt (hfFloatOf (n : Int)).neg (hfFloatOf (n : Int)).mant (hfFloatOf (n : Int)).exp
      false 5404319552844595 (-52) = true := by
  rcases Nat.eq_zero_or_pos n with h0 | h0
  · subst h0
    simp only [Nat.cast_zero, hfFloatOf_zero]
    decide
  · have hn : n ≠ 0 := by omega
    rw [hfFloat_sign n hn]
    show dyLt _ _ _ _ = true
    rw [dyLt_iff, val_warn]
    have h1 : (n : ℚ) / 1000000000000000000 ≤ val 11068046444225730559 (-63) := by
      unfold val
      rw [div_le_iff₀ (by norm_num)]
      have : (n : ℚ) ≤ 1199999999999999955 := by exact_mod_cast h
      norm_num
      linarith
    have h2 := hfFloat_le n 11068046444225730559 (-63) hn (by norm_num) h1
    have h3 : val 11068046444225730559 (-63) < 5404319552844595 / 4503599627370496 := by
      unfold val; norm_num
    linarith

/-- From its threshold on the `big.Float` comparison with `float64` 1.2 fails. -/
theorem builder_warn_of_ge (n : Nat) (h : 1199999999999999956 ≤ n) :
    sdyLt (hfFloatOf (n : Int)).neg (hfFloatOf (n : Int)).mant (hfFloatOf (n : Int)).exp
      false 5404319552844595 (-52) = false := by
  have hn : n ≠ 0 := by omega
  rw [hfFloat_sign n hn]
  show dyLt _ _ _ _ = false
  rw [Bool.eq_false_iff, Ne, dyLt_iff, val_warn, not_lt]
  have h1 : val 5404319552844595 (-52) ≤ (n : ℚ) / 1000000000000000000 := by
    rw [val_warn, le_div_iff₀ (by norm_num)]
    have : (1199999999999999956 : ℚ) ≤ n := by exact_mod_cast h
    norm_num
    linarith
  have h2 := hfFloat_ge n 5404319552844595 (-52) hn (by norm_num) h1
  rw [val_warn] at h2
  exact h2

theorem gateW_window : ∀ i : Nat, i < 222 →
    F64.lt (hfValueOf (1199999999999999734 + (i : Int))) HealthFactorWarning = decide (i < 111) := by
  decide!

/-- The `float64` gate `hfValue < HealthFactorWarning`, in terms of the raw value. -/
theorem gateW_iff (n : Nat) :
    F64.lt (hfValueOf (n : Int)) HealthFactorWarning = true ↔ n ≤ 1199999999999999844 := by
  rcases Nat.eq_zero_or_pos n with h0 | h0
  · subst h0
    have h : F64.lt (hfValueOf 0) HealthFactorWarning = true := by decide
    simp only [Nat.cast_zero]
    exact ⟨fun _ => by omega, fun _ => h⟩
  have hn : n ≠ 0 := by omega
  have hm := hfFloat_mant_ne n hn
  have hlow := hfFloat_normal n hn
  have hsg := hfFloat_sign n hn
  rcases Nat.lt_or_ge n 1199999999999999734 with hA | hA
  · -- far below: both roundings stay under the predecessor of 1.2
    have h1 : (n : ℚ) / 1000000000000000000 ≤ val 5404319552844594 (-52) := by
      unfold val
      rw [div_le_iff₀ (by norm_num)]
      have : (n : ℚ) ≤ 1199999999999999733 := by exact_mod_cast Nat.le_of_lt_succ hA
      norm_num
      linarith
    have h2 := hfFloat_le n 5404319552844594 (-52) hn (by norm_num) h1
    have hc : val 5404319552844594 (-52) < (2 : ℚ) ^ (1024 : Int) := by
      have : val 5404319552844594 (-52) < 2 := by unfold val; norm_num
      have h22 : (2 : ℚ) = 2 ^ (1 : Int) := by norm_num
      have : (2 : ℚ) ^ (1 : Int) ≤ 2 ^ (1024 : Int) :=
        zpow_le_zpow_right₀ (by norm_num) (by norm_num)
      linarith
    obtain ⟨m, e, hF, hle⟩ := Float64_le (hfFloatOf (n : Int)) 5404319552844594 (-52) hm hlow
      (by norm_num) h2 hc
    have hlt : val m e < val 5404319552844595 (-52) := by
      have : val 5404319552844594 (-52) < val 5404319552844595 (-52) := by
        unfold val; norm_num
      linarith
    unfold hfValueOf
    rw [hF, hsg, HealthFactorWarning_eq]
    simp only [F64.lt, sdyLt]
    rw [dyLt_iff]
    exact ⟨fun _ => by omega, fun _ => hlt⟩
  rcases Nat.lt_or_ge n 1199999999999999956 with hB | hB
  · -- the window between the predecessor of 1.2 and 1.2: by evaluation
    obtain ⟨i, hi⟩ : ∃ i, n = 1199999999999999734 + i := ⟨n - 1199999999999999734, by omega⟩
    have hi2 : i < 222 := by omega
    have hw := gateW_window i hi2
    have hcast : ((n : Nat) : Int) = 1199999999999999734 + (i : Int) := by
      rw [hi]; push_cast; ring
    rw [hcast, hw, decide_eq_true_iff]
    omega
  · -- at or above 1.2: neither rounding comes back below it
    have h1 : val 5404319552844595 (-52) ≤ (n : ℚ) / 1000000000000000000 := by
      rw [val_warn, le_div_iff₀ (by norm_num)]
      have : (1199999999999999956 : ℚ) ≤ n := by exact_mod_cast hB
      norm_num
      linarith
    have h2 := hfFloat_ge n 5404319552844595 (-52) hn (by norm_num) h1
    have hfalse : F64.lt (hfValueOf (n : Int)) HealthFactorWarning = false := by
      unfold hfValueOf
      rcases Float64_ge (hfFloatOf (n : Int)) 5404319552844595 (-52) hm hlow (by norm_num) h2
        with hF | ⟨m, e, hF, hge⟩
      · rw [hF, hsg, HealthFactorWarning_eq]; rfl
      · rw [hF, hsg, HealthFactorWarning_eq]
        simp only [F64.lt, sdyLt]
        rw [Bool.eq_false_iff, Ne, dyLt_iff, not_lt]
        exact hge
    rw [hfalse]
    constructor
    · intro h; cases h
    · intro h; omega

/-- A `float64` below 1.0 is below 1.2. -/
theorem lt_critical_lt_warning (a : F64) (h : F64.lt a HealthFactorCritical = true) :
    F64.lt a HealthFactorWarning = true := by
  rw [HealthFactorCritical_eq] at h
  rw [HealthFactorWarning_eq]
  cases a with
  | fin neg m e =>
    cases neg
    · simp only [F64.lt, sdyLt] at h ⊢
      rw [dyLt_iff] at h ⊢
      rw [val_one] at h
      rw [val_warn]
      have : (1 : ℚ) < 5404319552844595 / 4503599627370496 := by norm_num
      linarith
    · simp [F64.lt, sdyLt]
  | inf neg => simpa [F64.lt] using h
  | nan => simp [F64.lt] at h

/-! ## Traces of a cycle -/

theorem checkAndAlert_append (xs ys : List Probe) :
    checkAndAlert (xs ++ ys) = checkAndAlert xs ++ checkAndAlert ys := by
  induction xs with
  | nil => rfl
  | cons p rest ih => simp [checkAndAlert, ih, List.append_assoc]

theorem checkAndAlert_single (p : Probe) : checkAndAlert [p] = checkOne p := by
  simp [checkAndAlert]

theorem fetches_append (xs ys : List Event) : fetches (xs ++ ys) = fetches xs ++ fetches ys := by
  induction xs with
  | nil => rfl
  | cons ev rest ih => cases ev <;> simp [fetches, ih]

theorem alertsSent_append (xs ys : List Event) :
    alertsSent (xs ++ ys) = alertsSent xs ++ alertsSent ys := by
  induction xs with
  | nil => rfl
  | cons ev rest ih => cases ev <;> simp [alertsSent, ih]

theorem Cmp_neg_iff (x y : BigFloat) :
    x.Cmp y < 0 ↔ sdyLt x.neg x.mant x.exp y.neg y.mant y.exp = true := by
  unfold BigFloat.Cmp
  split_ifs with h1 h2
  · simp [h1]
  · simp [h1]
  · simp [h1]

theorem one_eq : BigFloat.SetFloat64 (F64.ofRatio 1 1) = ⟨53, false, 4503599627370496, -52⟩ := by
  decide

theorem warningThreshold_eq :
    BigFloat.SetFloat64 (F64.ofRatio 12 10) = ⟨53, false, 5404319552844595, -52⟩ := by
  decide

/-- The level `AlertOnLowHealthFactor` chooses, as a function of the two comparisons. -/
theorem builder_level (c : Bool) (s : SinkOutcome) (u : String) (hf : BigFloat) :
    (AlertOnLowHealthFactor c s u hf).level =
      if sdyLt hf.neg hf.mant hf.exp false 4503599627370496 (-52) = true
      then some AlertLevel.AlertCritical
      else if sdyLt hf.neg hf.mant hf.exp false 5404319552844595 (-52) = true
      then some AlertLevel.AlertWarning
      else none := by
  unfold AlertOnLowHealthFactor
  simp only [Cmp_neg_iff, one_eq, warningThreshold_eq]
  split_ifs <;> rfl

theorem builder_subject (c : Bool) (s : SinkOutcome) (u : String) (hf : BigFloat) :
    (AlertOnLowHealthFactor c s u hf).sent.map Alert.Subject =
      (AlertOnLowHealthFactor c s u hf).level.map (fun _ => u) := by
  unfold Dispatch.level AlertOnLowHealthFactor
  simp only
  split_ifs <;> rfl

theorem alertsSent_alertSteps (p : Probe) (hf : BigFloat) :
    alertsSent (alertSteps p hf) =
      (AlertOnLowHealthFactor p.ctxDone p.sink p.addr hf).sent.toList := by
  unfold alertSteps
  simp only
  cases h1 : (AlertOnLowHealthFactor p.ctxDone p.sink p.addr hf).sent <;>
    cases h2 : (AlertOnLowHealthFactor p.ctxDone p.sink p.addr hf).result <;>
    simp [alertsSent]

theorem fetches_alertSteps (p : Probe) (hf : BigFloat) : fetches (alertSteps p hf) = [] := by
  unfold alertSteps
  simp only
  cases h1 : (AlertOnLowHealthFactor p.ctxDone p.sink p.addr hf).sent <;>
    cases h2 : (AlertOnLowHealthFactor p.ctxDone p.sink p.addr hf).result <;>
    simp [fetches]

/-- The alerts of one iteration with debt: those of the builder when the
`float64` gate lets the call happen, none otherwise. -/
theorem alertsSent_checkOne (p : Probe) (data : AccountData) (hfetch : p.fetch = .ok data)
    (hdebt : data.TotalDebtBase ≠ 0) :
    alertsSent (checkOne p) =
      if F64.lt (hfValueOf data.HealthFactor) HealthFactorWarning = true
      then (AlertOnLowHealthFactor p.ctxDone p.sink p.addr (hfFloatOf data.HealthFactor)).sent.toList
      else [] := by
  unfold checkOne
  rw [hfetch]
  simp only [hdebt, if_false]
  have hv : (hfFloatOf data.HealthFactor).Float64 = hfValueOf data.HealthFactor := rfl
  rw [hv]
  by_cases hC : F64.lt (hfValueOf data.HealthFactor) HealthFactorCritical = true
  · have hW := lt_critical_lt_warning _ hC
    simp [hC, hW, alertsSent, alertsSent_alertSteps]
  · by_cases hW : F64.lt (hfValueOf data.HealthFactor) HealthFactorWarning = true
    · simp [hC, hW, alertsSent, alertsSent_alertSteps]
    · simp [hC, hW, alertsSent]

theorem fetches_checkOne (p : Probe) : fetches (checkOne p) = [p.addr] := by
  unfold checkOne
  cases hf : p.fetch with
  | error e => simp [fetches]
  | ok data =>
    simp only [fetches]
    split_ifs <;> simp [fetches, fetches_alertSteps]

theorem fetches_checkAndAlert (accts : List Probe) :
    fetches (checkAndAlert accts) = accts.map Probe.addr := by
  induction accts with
  | nil => rfl
  | cons p rest ih => simp [checkAndAlert, fetches_append, fetches_checkOne, ih]

theorem fetches_monitorOne (url : String) (p : Probe) : fetches (monitorOne url p) = [p.addr] := by
  unfold monitorOne
  cases hf : p.fetch with
  | error e => simp [fetches]
  | ok data =>
    simp only [fetches, fetches_append]
    split_ifs <;> simp [fetches]

theorem fetches_monitorLoop (url : String) (accts : List Probe) :
    fetches (monitorLoop url accts) = accts.map Probe.addr := by
  induction accts with
  | nil => rfl
  | cons p rest ih => simp [monitorLoop, fetches_append, fetches_monitorOne, ih]

/-! ## C1: thresholds of the health-factor alert -/

/-- The levels one iteration with debt and a non-negative raw value sends. -/
theorem levelsSent_checkOne (p : Probe) (data : AccountData) (hfetch : p.fetch = .ok data)
    (hdebt : data.TotalDebtBase ≠ 0) (n : Nat) (hr : data.HealthFactor = (n : Int)) :
    levelsSent (checkOne p) =
      if n < 1000000000000000000 then [AlertLevel.AlertCritical]
      else if n ≤ 1199999999999999844 then [AlertLevel.AlertWarning]
      else [] := by
  unfold levelsSent
  rw [alertsSent_checkOne p data hfetch hdebt, hr]
  have hg := gateW_iff n
  have hl := builder_level p.ctxDone p.sink p.addr (hfFloatOf (n : Int))
  unfold Dispatch.level at hl
  by_cases h1 : n ≤ 1199999999999999844
  · rw [if_pos (hg.2 h1)]
    have hw := builder_warn_of_le n (by omega)
    by_cases h2 : n < 1000000000000000000
    · rw [if_pos ((builder_crit_iff n).2 h2)] at hl
      rw [if_pos h2]
      cases hs : (AlertOnLowHealthFactor p.ctxDone p.sink p.addr (hfFloatOf (n : Int))).sent with
      | none => rw [hs] at hl; simp at hl
      | some a => rw [hs] at hl; simp at hl; simp [hl]
    · have hc : ¬ (sdyLt (hfFloatOf (n : Int)).neg (hfFloatOf (n : Int)).mant
          (hfFloatOf (n : Int)).exp false 4503599627370496 (-52) = true) :=
        fun h => h2 ((builder_crit_iff n).1 h)
      rw [if_neg hc, if_pos hw] at hl
      rw [if_neg h2, if_pos h1]
      cases hs : (AlertOnLowHealthFactor p.ctxDone p.sink p.addr (hfFloatOf (n : Int))).sent with
      | none => rw [hs] at hl; simp at hl
      | some a => rw [hs] at hl; simp at hl; simp [hl]
  · have hng : ¬ (F64.lt (hfValueOf (n : Int)) HealthFactorWarning = true) := fun h => h1 (hg.1 h)
    rw [if_neg hng, if_neg (by omega), if_neg h1]
    rfl

/-- What one cycle does for an account with debt and a non-negative raw
health factor `r`: it sends exactly a CRITICAL alert iff `r < 10^18`, exactly a
WARNING alert iff `10^18 ≤ r ≤ 1199999999999999844`, and no alert iff
`r ≥ 1199999999999999845`. The lower threshold is exact; the upper one is where
`hfValue` starts to round to the `float64` 1.2. -/
theorem levels_by_raw_value (p : Probe) (data : AccountData)
    (hfetch : p.fetch = .ok data) (hdebt : data.TotalDebtBase ≠ 0)
    (hr : 0 ≤ data.HealthFactor) :
    (levelsSent (checkAndAlert [p]) = [AlertLevel.AlertCritical] ↔
      data.HealthFactor < 1000000000000000000) ∧
    (levelsSent (checkAndAlert [p]) = [AlertLevel.AlertWarning] ↔
      1000000000000000000 ≤ data.HealthFactor ∧ data.HealthFactor ≤ 1199999999999999844) ∧
    (levelsSent (checkAndAlert [p]) = [] ↔ 1199999999999999845 ≤ data.HealthFactor) := by
  obtain ⟨n, hn⟩ := Int.eq_ofNat_of_zero_le hr
  rw [checkAndAlert_single, levelsSent_checkOne p data hfetch hdebt n hn, hn]
  by_cases h1 : n < 1000000000000000000
  · rw [if_pos h1]
    exact ⟨⟨(fun _ => by omega), fun _ => rfl⟩, ⟨(fun h => by cases h), fun h => by omega⟩,
      ⟨(fun h => by cases h), fun h => by omega⟩⟩
  · rw [if_neg h1]
    by_cases h2 : n ≤ 1199999999999999844
    · rw [if_pos h2]
      exact ⟨⟨(fun h => by cases h), fun h => by omega⟩, ⟨(fun _ => by omega), fun _ => rfl⟩,
        ⟨(fun h => by cases h), fun h => by omega⟩⟩
    · rw [if_neg h2]
      exact ⟨⟨(fun h => by cases h), fun h => by omega⟩, ⟨(fun h => by cases h), fun h => by omega⟩,
        ⟨(fun _ => by omega), fun _ => rfl⟩⟩

/-- C1, evaluated where it fails: raw value 1199999999999999999 with debt is
at least 10^18 and below 1.2 * 10^18, so a WARNING is due; but `hfValue` rounds
to the `float64` 1.2, the gate `hfValue < HealthFactorWarning` is false and the
cycle sends nothing. The last raw value that gets its WARNING is
1199999999999999844; from 1199999999999999845 on nothing is sent. -/
theorem C1_warning_not_sent :
    levelsSent (checkAndAlert [⟨"0xA", .ok ⟨2, 1, 1199999999999999999⟩, false, .responds 200⟩])
      = [] ∧
    hfValueOf 1199999999999999999 = HealthFactorWarning ∧
    F64.lt (hfValueOf 1199999999999999999) HealthFactorWarning = false ∧
    (1000000000000000000 : Int) ≤ 1199999999999999999 ∧
    (1199999999999999999 : Int) < 1200000000000000000 ∧
    levelsSent (checkAndAlert [⟨"0xA", .ok ⟨2, 1, 1199999999999999844⟩, false, .responds 200⟩])
      = [AlertLevel.AlertWarning] ∧
    levelsSent (checkAndAlert [⟨"0xA", .ok ⟨2, 1, 1199999999999999845⟩, false, .responds 200⟩])
      = [] := by
  decide

/-- C2: for every account with nonzero debt, raw value exactly 10^18 passes the
`float64` gate as a warning (not below 1.0, below 1.2), the builder makes a
WARNING alert of it and the cycle sends exactly that; raw value exactly
1.2 * 10^18 does not pass the gate, the builder makes no alert of it and the
cycle sends nothing. -/
theorem C2_boundary_exactness (addr : String) (c : Bool) (s : SinkOutcome)
    (collateral debt : Int) (hdebt : debt ≠ 0) :
    F64.lt (hfValueOf 1000000000000000000) HealthFactorCritical = false ∧
    F64.lt (hfValueOf 1000000000000000000) HealthFactorWarning = true ∧
    (AlertOnLowHealthFactor c s addr (hfFloatOf 1000000000000000000)).level
      = some AlertLevel.AlertWarning ∧
    levelsSent (checkAndAlert [⟨addr, .ok ⟨collateral, debt, 1000000000000000000⟩, c, s⟩])
      = [AlertLevel.AlertWarning] ∧
    F64.lt (hfValueOf 1200000000000000000) HealthFactorWarning = false ∧
    F64.lt (hfValueOf 1200000000000000000) HealthFactorCritical = false ∧
    (AlertOnLowHealthFactor c s addr (hfFloatOf 1200000000000000000)).level = none ∧
    levelsSent (checkAndAlert [⟨addr, .ok ⟨collateral, debt, 1200000000000000000⟩, c, s⟩])
      = [] := by
  refine ⟨by decide, by decide, ?_, ?_, by decide, by decide, ?_, ?_⟩
  · rw [builder_level]; decide
  · rw [checkAndAlert_single,
      levelsSent_checkOne _ ⟨collateral, debt, 1000000000000000000⟩ rfl hdebt
        1000000000000000000 rfl]
    decide
  · rw [builder_level]; decide
  · rw [checkAndAlert_single,
      levelsSent_checkOne _ ⟨collateral, debt, 1200000000000000000⟩ rfl hdebt
        1200000000000000000 rfl]
    decide

/-- C2, an instance: an account with a debt of seven units at raw value 10^18. -/
theorem C2_boundary_exactness_witness :
    levelsSent (checkAndAlert [⟨"0xD", .ok ⟨9, 7, 1000000000000000000⟩, false, .responds 200⟩])
      = [AlertLevel.AlertWarning] :=
  (C2_boundary_exactness "0xD" false (.responds 200) 9 7 (by decide)).2.2.2.1

/-- C3, evaluated where it fails: for raw value 999999999999999999 the
`float64` gate takes the Warning branch (its log line says WARNING) while the
builder, comparing the `big.Float`, sends a CRITICAL alert; for raw value
1199999999999999900 the gate classifies Healthy and calls nothing although
the builder would make a WARNING alert of the same quotient. -/
theorem C3_gate_builder_disagree :
    checkAndAlert [⟨"0xA", .ok ⟨2, 1, 999999999999999999⟩, false, .responds 200⟩] =
      [Event.fetch "0xA", Event.log .Warn "WARNING: Low health factor" "0xA",
       Event.send ⟨.AlertCritical, "낮은 헬스팩터 감지 / Low Health Factor Detected", "0xA"⟩
         (.ok ()),
       Event.log .Info "Alert sent" "낮은 헬스팩터 감지 / Low Health Factor Detected"] ∧
    checkAndAlert [⟨"0xA", .ok ⟨2, 1, 1199999999999999900⟩, false, .responds 200⟩] =
      [Event.fetch "0xA"] ∧
    (AlertOnLowHealthFactor false (.responds 200) "0xA" (hfFloatOf 1199999999999999900)).level
      = some AlertLevel.AlertWarning := by
  decide

/-- C4: an account fetched with zero total debt is skipped whatever its health
factor: its iteration consists of the fetch alone, so nothing is classified
or logged and no alert is sent for it, wherever it stands in the list. -/
theorem C4_zero_debt_skipped (p : Probe) (data : AccountData)
    (hfetch : p.fetch = .ok data) (hdebt : data.TotalDebtBase = 0) (pre post : List Probe) :
    checkOne p = [Event.fetch p.addr] ∧
    alertsSent (checkOne p) = [] ∧
    checkAndAlert (pre ++ p :: post) =
      checkAndAlert pre ++ Event.fetch p.addr :: checkAndAlert post := by
  have h1 : checkOne p = [Event.fetch p.addr] := by
    unfold checkOne
    rw [hfetch]
    simp [hdebt]
  refine ⟨h1, ?_, ?_⟩
  · rw [h1]; rfl
  · rw [checkAndAlert_append]
    simp [checkAndAlert, h1]

/-- C4, an instance: zero debt with a health factor far below 1.0. -/
theorem C4_zero_debt_skipped_witness :
    checkOne ⟨"0xB", .ok ⟨5, 0, 1⟩, false, .responds 200⟩ = [Event.fetch "0xB"] :=
  (C4_zero_debt_skipped ⟨"0xB", .ok ⟨5, 0, 1⟩, false, .responds 200⟩ ⟨5, 0, 1⟩ rfl rfl [] []).1

/-- C5, evaluated where it fails: a log whose only topic is one of the four
signature hashes is not reported as Unknown; `processLog` dies indexing
`Topics[1]` of a one-element slice. So does a LiquidationCall log with three
topics (when its hash differs from the three others), indexing `Topics[3]`. -/
theorem C5_short_topics_panic (sigs : EventSigs) (block tx : Nat) :
    processLog sigs ⟨[sigs.supplyEventSig], block, tx⟩ = .error (.indexOutOfRange 1 1) ∧
    processLog sigs ⟨[sigs.borrowEventSig], block, tx⟩ = .error (.indexOutOfRange 1 1) ∧
    processLog sigs ⟨[sigs.repayEventSig], block, tx⟩ = .error (.indexOutOfRange 1 1) ∧
    processLog sigs ⟨[sigs.liquidationEventSig], block, tx⟩ = .error (.indexOutOfRange 1 1) ∧
    processLog ⟨1, 2, 3, 4⟩ ⟨[4, 10, 11], block, tx⟩ = .error (.indexOutOfRange 3 3) := by
  refine ⟨?_, ?_, ?_, ?_, ?_⟩
  · simp [processLog, topicAt, bind, Except.bind]
  · simp only [processLog, topicAt]
    split_ifs <;> rfl
  · simp only [processLog, topicAt]
    split_ifs <;> rfl
  · simp only [processLog, topicAt]
    split_ifs <;> rfl
  · rfl

/-- The redirect statuses, spelled out. -/
theorem followsRedirect_iff (status : Int) :
    followsRedirect status = true ↔
      status = 301 ∨ status = 302 ∨ status = 303 ∨ status = 307 ∨ status = 308 := by
  unfold followsRedirect
  rw [decide_eq_true_iff]

/-- The only error `client.Do` returns in the model is the transport error. -/
theorem clientDo_error (sent : Nat) (chain : List Response) (e : DeliveryError)
    (h : clientDo sent chain = .error e) : e = .transport := by
  induction chain generalizing sent with
  | nil =>
    unfold clientDo at h
    cases h
    rfl
  | cons r rest ih =>
    unfold clientDo at h
    by_cases h1 : followsRedirect r.status = true
    · rw [if_pos h1] at h
      cases hl : r.location with
      | absent => rw [hl] at h; cases h
      | malformed => rw [hl] at h; cases h; rfl
      | target =>
        rw [hl] at h
        by_cases h2 : sent + 1 ≥ 10
        · simp only [h2, if_true] at h
          cases h
          rfl
        · simp only [h2, if_false] at h
          exact ih (sent + 1) h
    · rw [if_neg h1] at h
      cases h

/-- The outcome of `SendAlert` under a live context, from what `client.Do` returns. -/
theorem SendAlert_answers (chain : List Response) (alert : Alert) :
    SendAlert false (.answers chain) alert =
      match clientDo 0 chain with
      | .error e => .error e
      | .ok status => if status ≥ 300 then .error (.response status) else .ok () := by
  rfl

/-- C6 (as amended): once serialisation and request construction have
succeeded and the context is live, `SendAlert` returns success exactly when
the response `client.Do` returns has a status below 300, and returns the
status error exactly when that status is 300 or more. `client.Do` returns the
answer of the sink itself when it carries no `Location` header or is not a
301, 302, 303, 307 or 308, so that a 3xx answer of that kind is an error; an
answer 301, 302, 303, 307 or 308 naming a target is followed, and the delivery
then succeeds or fails with what the target answers. -/
theorem C6_send_status (status : Int) (alert : Alert) (chain rest : List Response)
    (loc : Location) :
    (SendAlert false (.responds status) alert = .ok () ↔ status < 300) ∧
    (SendAlert false (.responds status) alert = .error (.response status) ↔ 300 ≤ status) ∧
    (SendAlert false (.answers chain) alert = .ok () ↔
      ∃ st, clientDo 0 chain = .ok st ∧ st < 300) ∧
    (SendAlert false (.answers chain) alert = .error (.response status) ↔
      clientDo 0 chain = .ok status ∧ 300 ≤ status) ∧
    clientDo 0 (⟨status, .absent⟩ :: rest) = .ok status ∧
    (clientDo 0 (⟨status, loc⟩ :: rest) = .ok status ∨
      status = 301 ∨ status = 302 ∨ status = 303 ∨ status = 307 ∨ status = 308) ∧
    clientDo 0 (⟨301, .target⟩ :: rest) = clientDo 1 rest ∧
    clientDo 0 (⟨302, .target⟩ :: rest) = clientDo 1 rest ∧
    clientDo 0 (⟨303, .target⟩ :: rest) = clientDo 1 rest ∧
    clientDo 0 (⟨307, .target⟩ :: rest) = clientDo 1 rest ∧
    clientDo 0 (⟨308, .target⟩ :: rest) = clientDo 1 rest ∧
    (SendAlert false (.answers [⟨301, .target⟩, ⟨status, .absent⟩]) alert = .ok () ↔
      status < 300) := by
  have habs : ∀ st : Int, clientDo 0 (⟨st, .absent⟩ :: rest) = .ok st := by
    intro st
    unfold clientDo
    split_ifs <;> rfl
  have habs1 : ∀ st : Int, clientDo 1 [⟨st, .absent⟩] = .ok st := by
    intro st
    unfold clientDo
    split_ifs <;> rfl
  have hresp : ∀ st : Int, SendAlert false (.responds st) alert =
      if st ≥ 300 then .error (.response st) else .ok () := by
    intro st
    have h0 : clientDo 0 [⟨st, .absent⟩] = .ok st := by
      unfold clientDo
      split_ifs <;> rfl
    unfold SinkOutcome.responds
    rw [SendAlert_answers, h0]
  have hok : ∀ st : Int, ((if st ≥ 300 then (.error (.response st) : Except DeliveryError Unit)
      else .ok ()) = .ok () ↔ st < 300) := by
    intro st
    by_cases h : st ≥ 300
    · rw [if_pos h]
      exact ⟨(fun h2 => by cases h2), (fun h2 => by omega)⟩
    · rw [if_neg h]
      exact ⟨(fun _ => by omega), fun _ => rfl⟩
  refine ⟨?_, ?_, ?_, ?_, habs status, ?_, rfl, rfl, rfl, rfl, rfl, ?_⟩
  · rw [hresp]; exact hok status
  · rw [hresp]
    by_cases h : status ≥ 300
    · rw [if_pos h]
      exact ⟨fun _ => h, fun _ => rfl⟩
    · rw [if_neg h]
      exact ⟨(fun h2 => by cases h2), (fun h2 => absurd h2 h)⟩
  · rw [SendAlert_answers]
    cases hc : clientDo 0 chain with
    | error e =>
      exact ⟨(fun h2 => by cases h2), (fun ⟨_, h2, _⟩ => by cases h2)⟩
    | ok st =>
      constructor
      · intro h2
        exact ⟨st, rfl, (hok st).1 h2⟩
      · rintro ⟨st2, h2, h3⟩
        cases h2
        exact (hok st).2 h3
  · rw [SendAlert_answers]
    cases hc : clientDo 0 chain with
    | error e =>
      have he := clientDo_error 0 chain e hc
      subst he
      exact ⟨(fun h2 => by cases h2), (fun h2 => by cases h2.1)⟩
    | ok st =>
      by_cases h : st ≥ 300
      · constructor
        · intro h2
          simp only [h, if_true] at h2
          cases h2
          exact ⟨rfl, h⟩
        · rintro ⟨h2, _⟩
          cases h2
          simp only [h, if_true]
      · constructor
        · intro h2
          simp only [h, if_false] at h2
          cases h2
        · rintro ⟨h2, h3⟩
          cases h2
          exact absurd h3 h
  · by_cases hf : followsRedirect status = true
    · exact Or.inr ((followsRedirect_iff status).1 hf)
    · left
      unfold clientDo
      rw [if_neg hf]
  · rw [SendAlert_answers]
    have h1 : clientDo 0 [⟨301, .target⟩, ⟨status, .absent⟩] = .ok status := by
      show clientDo 1 [⟨status, .absent⟩] = .ok status
      exact habs1 status
    rw [h1]
    exact hok status

/-- C6 as stated fails: a sink answering 301 without a `Location` header has
answered with a 3xx status, yet `SendAlert` returns an error. -/
theorem C6_counterexample :
    ¬ (SendAlert false (.responds 301) ⟨.AlertWarning, "t", "u"⟩ = .ok () ↔
      ((200 : Int) ≤ 301 ∧ (301 : Int) ≤ 399)) := by
  decide

/-- The level `AlertOnOracleStaleness` chooses. -/
theorem oracle_level (c : Bool) (s : SinkOutcome) (feed : String) (staleness maxStaleness : Int) :
    (AlertOnOracleStaleness c s feed staleness maxStaleness).level =
      if staleness < maxStaleness then none
      else if staleness > wrap64 (2 * maxStaleness) then some AlertLevel.AlertCritical
      else some AlertLevel.AlertWarning := by
  unfold AlertOnOracleStaleness Dispatch.level
  split_ifs <;> rfl

/-- C7 (as amended): for every staleness, no alert is sent iff
`staleness < maxStaleness`; and when `0 ≤ maxStaleness < 2^62` (so that
`2 * maxStaleness` neither wraps nor falls below `maxStaleness`) a WARNING is
sent iff `maxStaleness ≤ staleness ≤ 2 * maxStaleness` and a CRITICAL iff
`staleness > 2 * maxStaleness`. -/
theorem C7_oracle_staleness (c : Bool) (s : SinkOutcome) (feed : String)
    (staleness maxStaleness : Int) (h0 : 0 ≤ maxStaleness) (h1 : maxStaleness < 2 ^ 62) :
    ((AlertOnOracleStaleness c s feed staleness maxStaleness).level = none ↔
      staleness < maxStaleness) ∧
    ((AlertOnOracleStaleness c s feed staleness maxStaleness).level
        = some AlertLevel.AlertWarning ↔
      maxStaleness ≤ staleness ∧ staleness ≤ 2 * maxStaleness) ∧
    ((AlertOnOracleStaleness c s feed staleness maxStaleness).level
        = some AlertLevel.AlertCritical ↔
      2 * maxStaleness < staleness) := by
  have hw : wrap64 (2 * maxStaleness) = 2 * maxStaleness := by
    unfold wrap64
    norm_num at h1 ⊢
    omega
  rw [oracle_level, hw]
  by_cases ha : staleness < maxStaleness
  · rw [if_pos ha]
    exact ⟨⟨fun _ => ha, fun _ => rfl⟩, ⟨(fun h => by cases h), (fun h => by omega)⟩,
      ⟨(fun h => by cases h), (fun h => by omega)⟩⟩
  · rw [if_neg ha]
    by_cases hb : staleness > 2 * maxStaleness
    · rw [if_pos hb]
      exact ⟨⟨(fun h => by cases h), (fun h => by omega)⟩,
        ⟨(fun h => by cases h), (fun h => by omega)⟩, ⟨(fun _ => by omega), fun _ => rfl⟩⟩
    · rw [if_neg hb]
      exact ⟨⟨(fun h => by cases h), (fun h => by omega)⟩,
        ⟨(fun _ => by omega), fun _ => rfl⟩, ⟨(fun h => by cases h), (fun h => by omega)⟩⟩

/-- C7, an instance: a limit of one hour and a staleness of ninety minutes. -/
theorem C7_oracle_staleness_witness :
    (AlertOnOracleStaleness false (.responds 200) "ETH/USD" 5400000000000 3600000000000).level
      = some AlertLevel.AlertWarning :=
  (C7_oracle_staleness false (.responds 200) "ETH/USD" 5400000000000 3600000000000
    (by decide) (by decide)).2.1.2 ⟨by decide, by decide⟩

/-- C7 as stated fails twice. With `maxStaleness = 2^62` the product wraps to
`-2^63`, and a staleness of `2^62`, which lies between the limit and twice the
limit, gets a CRITICAL alert instead of a WARNING. With `maxStaleness = -10`
a staleness of `-15` exceeds twice the limit, yet no alert is sent. -/
theorem C7_counterexample :
    ¬ ((AlertOnOracleStaleness false (.responds 200) "f" (2 ^ 62) (2 ^ 62)).level
        = some AlertLevel.AlertWarning ↔
      ((2 : Int) ^ 62 ≤ 2 ^ 62 ∧ (2 : Int) ^ 62 ≤ 2 * 2 ^ 62)) ∧
    ¬ ((AlertOnOracleStaleness false (.responds 200) "f" (-15) (-10)).level
        = some AlertLevel.AlertCritical ↔
      (2 * (-10) : Int) < -15) ∧
    IsDuration (2 ^ 62) ∧ IsDuration (-15) ∧ IsDuration (-10) := by
  decide

/-! ## C8: utilisation thresholds -/

theorem ratio09_eq : F64.ofRatio 9 10 = .fin false 8106479329266893 (-53) := by decide

theorem ratio095_eq : F64.ofRatio 95 100 = .fin false 8556839292003942 (-53) := by decide

/-- The level `AlertOnHighUtilization` chooses. -/
theorem utilization_level (c : Bool) (s : SinkOutcome) (asset : String) (u : F64) :
    (AlertOnHighUtilization c s asset u).level =
      if F64.lt u (.fin false 8106479329266893 (-53)) = true then none
      else if F64.lt (.fin false 8556839292003942 (-53)) u = true
      then some AlertLevel.AlertCritical
      else some AlertLevel.AlertWarning := by
  unfold AlertOnHighUtilization Dispatch.level F64.gt
  rw [ratio09_eq, ratio095_eq]
  split_ifs <;> rfl

/-- A 53-bit mantissa with an exponent below -53 makes a value under one half. -/
theorem val_small (m : Nat) (e : Int) (hm : m < 2 ^ 53) (he : e + 53 < 0) :
    val m e < 1 / 2 := by
  unfold val
  have h1 : (2 : ℚ) ^ e ≤ 2 ^ (-54 : Int) := zpow_le_zpow_right₀ (by norm_num) (by omega)
  have h2 : (m : ℚ) < 2 ^ 53 := by exact_mod_cast hm
  have h3 : (0 : ℚ) < 2 ^ e := two_zpow_pos e
  calc (m : ℚ) * 2 ^ e ≤ m * 2 ^ (-54 : Int) := mul_le_mul_of_nonneg_left h1 (by positivity)
    _ < 2 ^ 53 * 2 ^ (-54 : Int) := mul_lt_mul_of_pos_right h2 (two_zpow_pos _)
    _ = 1 / 2 := by norm_num

/-- A dyadic value with exponent at least -53 is a multiple of `2^-53`. -/
theorem val_grid (m : Nat) (e : Int) (he : 0 ≤ e + 53) :
    val m e = ((m * 2 ^ (e + 53).toNat : Nat) : ℚ) / 2 ^ 53 := by
  rw [val_nat m (e + 53) he]
  unfold val
  rw [zpow_add₀ (by norm_num : (2 : ℚ) ≠ 0)]
  have h : (2 : ℚ) ^ (53 : Int) = 2 ^ 53 := by norm_num
  rw [h]
  field_simp
  ring

/-- For a `float64`, being below the constant 0.9 is being below nine tenths. -/
theorem binary64_lt_09 (m : Nat) (e : Int) (hm : m < 2 ^ 53) :
    val m e < val 8106479329266893 (-53) ↔ val m e < 9 / 10 := by
  have hc : val 8106479329266893 (-53) = 8106479329266893 / 2 ^ 53 := by
    unfold val; norm_num
  rw [hc]
  constructor
  · intro h
    rcases le_or_lt 0 (e + 53) with he | he
    · rw [val_grid m e he] at h ⊢
      generalize m * 2 ^ (e + 53).toNat = K at h ⊢
      rw [div_lt_div_iff_of_pos_right (by norm_num)] at h
      have h2 : K < 8106479329266893 := by exact_mod_cast h
      have h3 : (K : ℚ) ≤ 8106479329266892 := by
        exact_mod_cast Nat.le_of_lt_succ h2
      rw [div_lt_iff₀ (by norm_num)]
      norm_num
      linarith
    · have := val_small m e hm he
      linarith
  · intro h
    have : (9 : ℚ) / 10 < 8106479329266893 / 2 ^ 53 := by norm_num
    linarith

/-- For a `float64`, being above the constant 0.95 is being above 95 hundredths. -/
theorem binary64_gt_095 (m : Nat) (e : Int) (hm : m < 2 ^ 53) :
    val 8556839292003942 (-53) < val m e ↔ 95 / 100 < val m e := by
  have hc : val 8556839292003942 (-53) = 8556839292003942 / 2 ^ 53 := by
    unfold val; norm_num
  rw [hc]
  constructor
  · intro h
    rcases le_or_lt 0 (e + 53) with he | he
    · rw [val_grid m e he] at h ⊢
      generalize m * 2 ^ (e + 53).toNat = K at h ⊢
      rw [div_lt_div_iff_of_pos_right (by norm_num)] at h
      have h2 : 8556839292003942 < K := by exact_mod_cast h
      have h3 : (8556839292003943 : ℚ) ≤ (K : ℚ) := by
        exact_mod_cast Nat.succ_le_of_lt h2
      rw [lt_div_iff₀ (by norm_num)]
      norm_num
      linarith
    · have := val_small m e hm he
      have : (1 : ℚ) / 2 < 8556839292003942 / 2 ^ 53 := by norm_num
      linarith
  · intro h
    have : (8556839292003942 : ℚ) / 2 ^ 53 < 95 / 100 := by norm_num
    linarith

/-- C8: for every `float64` utilisation ratio in [0, 1], `AlertOnHighUtilization`
sends no alert iff the ratio is below 0.90, a WARNING iff it lies between 0.90
and 0.95 inclusive, and a CRITICAL iff it is above 0.95, the bounds being the
exact decimals. -/
theorem C8_utilization_thresholds (c : Bool) (s : SinkOutcome) (asset : String) (u : F64)
    (hu : u.IsBinary64) (h0 : 0 ≤ u.toRat) (h1 : u.toRat ≤ 1) :
    ((AlertOnHighUtilization c s asset u).level = none ↔ u.toRat < 9 / 10) ∧
    ((AlertOnHighUtilization c s asset u).level = some AlertLevel.AlertWarning ↔
      9 / 10 ≤ u.toRat ∧ u.toRat ≤ 95 / 100) ∧
    ((AlertOnHighUtilization c s asset u).level = some AlertLevel.AlertCritical ↔
      95 / 100 < u.toRat) := by
  rw [utilization_level]
  cases u with
  | inf neg => exact absurd hu (by simp [F64.IsBinary64])
  | nan => exact absurd hu (by simp [F64.IsBinary64])
  | fin neg m e =>
    have hm : m < 2 ^ 53 := hu.1
    cases neg with
    | true =>
      have hv : val m e = 0 := by
        have h2 : 0 ≤ -(val m e) := by simpa [F64.toRat] using h0
        have h3 := val_nonneg m e
        linarith
      have hlt : F64.lt (.fin true m e) (.fin false 8106479329266893 (-53)) = true := by
        simp [F64.lt, sdyLt]
      have ht : (F64.fin true m e).toRat = 0 := by simp [F64.toRat, hv]
      rw [if_pos hlt, ht]
      exact ⟨⟨(fun _ => by norm_num), fun _ => rfl⟩, ⟨(fun h => by cases h),
        (fun h => by norm_num at h)⟩, ⟨(fun h => by cases h), (fun h => by norm_num at h)⟩⟩
    | false =>
      have ht : (F64.fin false m e).toRat = val m e := by simp [F64.toRat]
      have hA : F64.lt (.fin false m e) (.fin false 8106479329266893 (-53)) = true ↔
          val m e < 9 / 10 := by
        show dyLt _ _ _ _ = true ↔ _
        rw [dyLt_iff, binary64_lt_09 m e hm]
      have hB : F64.lt (.fin false 8556839292003942 (-53)) (.fin false m e) = true ↔
          95 / 100 < val m e := by
        show dyLt _ _ _ _ = true ↔ _
        rw [dyLt_iff, binary64_gt_095 m e hm]
      rw [ht]
      by_cases ha : val m e < 9 / 10
      · rw [if_pos (hA.2 ha)]
        exact ⟨⟨fun _ => ha, fun _ => rfl⟩, ⟨(fun h => by cases h), (fun h => by linarith [h.1])⟩,
          ⟨(fun h => by cases h), (fun h => by linarith)⟩⟩
      · rw [if_neg (fun h => ha (hA.1 h))]
        by_cases hb : 95 / 100 < val m e
        · rw [if_pos (hB.2 hb)]
          exact ⟨⟨(fun h => by cases h), (fun h => absurd h ha)⟩,
            ⟨(fun h => by cases h), (fun h => by linarith [h.2])⟩, ⟨fun _ => hb, fun _ => rfl⟩⟩
        · rw [if_neg (fun h => hb (hB.1 h))]
          exact ⟨⟨(fun h => by cases h), (fun h => absurd h ha)⟩,
            ⟨(fun _ => ⟨not_lt.1 ha, not_lt.1 hb⟩), fun _ => rfl⟩,
            ⟨(fun h => by cases h), (fun h => absurd h hb)⟩⟩

/-- C8, an instance: the ratio 15/16 = 0.9375 gets a WARNING. -/
theorem C8_utilization_thresholds_witness :
    (AlertOnHighUtilization false (.responds 200) "WETH" (.fin false 15 (-4))).level
      = some AlertLevel.AlertWarning :=
  (C8_utilization_thresholds false (.responds 200) "WETH" (.fin false 15 (-4))
    (by unfold F64.IsBinary64; decide) (by norm_num [F64.toRat, val])
    (by norm_num [F64.toRat, val])).2.1.2
    ⟨by norm_num [F64.toRat, val], by norm_num [F64.toRat, val]⟩

/-! ## C9, C10: one cycle over the list -/

/-- Whenever the `float64` gate lets the call happen, the builder makes an alert. -/
theorem gate_builds (c : Bool) (s : SinkOutcome) (u : String) (r : Int)
    (hg : F64.lt (hfValueOf r) HealthFactorWarning = true) :
    ∃ lvl, (AlertOnLowHealthFactor c s u (hfFloatOf r)).level = some lvl := by
  rw [builder_level]
  rcases lt_or_le r 0 with hneg | hpos
  · obtain ⟨h1, h2⟩ := hfFloatOf_neg r hneg
    have : sdyLt (hfFloatOf r).neg (hfFloatOf r).mant (hfFloatOf r).exp
        false 4503599627370496 (-52) = true := by
      rw [h1]; simp [sdyLt]
    rw [if_pos this]
    exact ⟨_, rfl⟩
  · obtain ⟨n, hn⟩ := Int.eq_ofNat_of_zero_le hpos
    subst hn
    have h1 := (gateW_iff n).1 hg
    have h2 := builder_warn_of_le n (by omega)
    rw [if_pos h2]
    split_ifs
    · exact ⟨_, rfl⟩
    · exact ⟨_, rfl⟩

/-- One iteration hands an alert to `SendAlert` exactly for an account that is
below the warning gate, and the alert is about that account. -/
theorem subjectsSent_checkOne (p : Probe) :
    subjectsSent (checkOne p) = if passesGate p = true then [p.addr] else [] := by
  unfold subjectsSent passesGate
  cases hf : p.fetch with
  | error e =>
    have : checkOne p = [Event.fetch p.addr, Event.log .Error "Failed to get account data" p.addr] := by
      unfold checkOne; rw [hf]
    rw [this]
    simp [alertsSent]
  | ok data =>
    by_cases hd : data.TotalDebtBase = 0
    · have : checkOne p = [Event.fetch p.addr] := by
        unfold checkOne; rw [hf]; simp [hd]
      rw [this]
      simp [alertsSent, hd]
    · rw [alertsSent_checkOne p data hf hd]
      by_cases hg : F64.lt (hfValueOf data.HealthFactor) HealthFactorWarning = true
      · obtain ⟨lvl, hl⟩ := gate_builds p.ctxDone p.sink p.addr data.HealthFactor hg
        have hs := builder_subject p.ctxDone p.sink p.addr (hfFloatOf data.HealthFactor)
        rw [hl] at hs
        cases hsent : (AlertOnLowHealthFactor p.ctxDone p.sink p.addr
            (hfFloatOf data.HealthFactor)).sent with
        | none => rw [hsent] at hs; simp at hs
        | some a =>
          rw [hsent] at hs
          simp at hs
          simp [hg, hd, hs]
      · simp [hg, hd]

theorem subjectsSent_checkAndAlert (accts : List Probe) :
    subjectsSent (checkAndAlert accts) = (accts.filter (fun p => passesGate p)).map Probe.addr := by
  induction accts with
  | nil => rfl
  | cons p rest ih =>
    have h1 := subjectsSent_checkOne p
    unfold subjectsSent at h1 ih ⊢
    rw [checkAndAlert, alertsSent_append, List.map_append, h1, ih]
    by_cases hb : passesGate p = true
    · simp [hb]
    · simp [hb]

/-- Isolation in one `checkAndAlert` cycle: the alerts handed to `SendAlert`
are, in list order, those of exactly the accounts that pass the gate of the
code; every account of the list is fetched, so the cycle runs to the end
whatever fails; and the steps of the cycle are the steps of the accounts
before, of the account itself and of the accounts after, each a function of
that account's own outcomes only. -/
theorem cycle_isolation (accts pre post : List Probe) (p : Probe) :
    subjectsSent (checkAndAlert accts)
      = (accts.filter (fun q => passesGate q)).map Probe.addr ∧
    fetches (checkAndAlert accts) = accts.map Probe.addr ∧
    checkAndAlert (pre ++ p :: post) = checkAndAlert pre ++ checkOne p ++ checkAndAlert post := by
  refine ⟨subjectsSent_checkAndAlert accts, fetches_checkAndAlert accts, ?_⟩
  rw [checkAndAlert_append]
  simp [checkAndAlert]

/-- C9, evaluated where it fails: in a list of three accounts, the first at
raw value 1100000000000000000, the second at 1199999999999999999 (both with
debt, both with a scaled health factor below 1.2) and the third with a failed
fetch, the cycle fetches all three but attempts a delivery for the first
only; the accounts fetched, with debt and below 1.2 are the first and the
second. -/
theorem C9_delivery_not_attempted :
    subjectsSent (checkAndAlert
      [⟨"0xA", .ok ⟨2, 1, 1100000000000000000⟩, false, .responds 200⟩,
       ⟨"0xB", .ok ⟨2, 1, 1199999999999999999⟩, false, .responds 200⟩,
       ⟨"0xC", .error "rpc", false, .responds 200⟩]) = ["0xA"] ∧
    (([⟨"0xA", .ok ⟨2, 1, 1100000000000000000⟩, false, .responds 200⟩,
       ⟨"0xB", .ok ⟨2, 1, 1199999999999999999⟩, false, .responds 200⟩,
       ⟨"0xC", .error "rpc", false, .responds 200⟩] : List Probe).filter
        (fun q => belowWarning q)).map Probe.addr = ["0xA", "0xB"] ∧
    fetches (checkAndAlert
      [⟨"0xA", .ok ⟨2, 1, 1100000000000000000⟩, false, .responds 200⟩,
       ⟨"0xB", .ok ⟨2, 1, 1199999999999999999⟩, false, .responds 200⟩,
       ⟨"0xC", .error "rpc", false, .responds 200⟩]) = ["0xA", "0xB", "0xC"] := by
  decide

/-- A cancelled context makes every delivery fail, and does nothing else. -/
theorem SendAlert_cancelled (sink : SinkOutcome) (alert : Alert) :
    SendAlert true sink alert ≠ .ok () := by
  cases sink <;> simp [SendAlert]

/-- C10 (as amended): the loops of `checkAndAlert` and `monitorCycle` do not
consult the context: whatever its state at each account, also when it is
cancelled from the start, a cycle issues the fetch for every address of the
list, in order; and a `SendAlert` call made under a cancelled context returns
an error. -/
theorem C10_cancellation_not_observed (webhookURL : String) (accts : List Probe)
    (sink : SinkOutcome) (alert : Alert) :
    fetches (checkAndAlert accts) = accts.map Probe.addr ∧
    fetches (monitorCycle webhookURL accts) = accts.map Probe.addr ∧
    fetches (checkAndAlert (accts.map (fun p => ⟨p.addr, p.fetch, true, p.sink⟩)))
      = accts.map Probe.addr ∧
    fetches (monitorCycle webhookURL (accts.map (fun p => ⟨p.addr, p.fetch, true, p.sink⟩)))
      = accts.map Probe.addr ∧
    SendAlert true sink alert ≠ .ok () := by
  have hm : ∀ l : List Probe, fetches (monitorCycle webhookURL l) = l.map Probe.addr := by
    intro l
    unfold monitorCycle
    rw [fetches_append, fetches_monitorLoop]
    simp [fetches]
  refine ⟨fetches_checkAndAlert accts, hm accts, ?_, ?_, SendAlert_cancelled sink alert⟩
  · rw [fetches_checkAndAlert, List.map_map]; rfl
  · rw [hm, List.map_map]; rfl

/-- C10 as stated fails: a cycle started with an already-cancelled context
still fetches the account, in the alerter and in the monitor. -/
theorem C10_counterexample :
    ¬ (fetches (checkAndAlert [⟨"0xA", .ok ⟨2, 1, 1000000000000000000⟩, true, .responds 200⟩])
        = []) ∧
    ¬ (fetches (monitorCycle "" [⟨"0xA", .ok ⟨2, 1, 1000000000000000000⟩, true, .responds 200⟩])
        = []) := by
  decide

/-! ## C11, C12: the event classifier -/

/-- A log with the topics its case reads is always reported, and the variant
is the first case of the `switch` that the first topic matches. -/
theorem processLog_variant (sigs : EventSigs) (t : Nat) (rest : List Nat) (block tx : Nat)
    (h : requiredTopics sigs t ≤ (t :: rest).length) :
    ∃ e, processLog sigs ⟨t :: rest, block, tx⟩ = .ok (some e) ∧
      e.variant =
        if t = sigs.supplyEventSig then Variant.Supply
        else if t = sigs.borrowEventSig then Variant.Borrow
        else if t = sigs.repayEventSig then Variant.Repay
        else if t = sigs.liquidationEventSig then Variant.LiquidationCall
        else Variant.Unknown := by
  unfold requiredTopics at h
  unfold processLog
  simp only
  split_ifs at h ⊢
  · match rest, h with
    | _ :: _, _ => exact ⟨_, rfl, rfl⟩
  · match rest, h with
    | _ :: _, _ => exact ⟨_, rfl, rfl⟩
  · match rest, h with
    | _ :: _, _ => exact ⟨_, rfl, rfl⟩
  · match rest, h with
    | _ :: _ :: _ :: _, _ => exact ⟨_, rfl, rfl⟩
  · exact ⟨_, rfl, rfl⟩

/-- C11: a log with exactly four topics whose first topic is the
LiquidationCall signature hash (a hash different from the three others) is
reported as LiquidationCall, with the collateral asset, the debt asset and the
user being the low-order 20 bytes of topics 1, 2 and 3, and with the block
number and the transaction hash of the log. -/
theorem C11_liquidation_call (sigs : EventSigs) (vLog : Log) (t0 t1 t2 t3 : Nat)
    (htopics : vLog.Topics = [t0, t1, t2, t3]) (h0 : t0 = sigs.liquidationEventSig)
    (hs : sigs.liquidationEventSig ≠ sigs.supplyEventSig)
    (hb : sigs.liquidationEventSig ≠ sigs.borrowEventSig)
    (hr : sigs.liquidationEventSig ≠ sigs.repayEventSig) :
    processLog sigs vLog = .ok (some (.LiquidationCall vLog.BlockNumber vLog.TxHash
      (t1 % 2 ^ 160) (t2 % 2 ^ 160) (t3 % 2 ^ 160))) := by
  unfold processLog
  rw [htopics]
  subst h0
  simp only [hs, hb, hr, if_false, if_true]
  rfl

/-- C11, an instance: the hashes of the program and a log of block 7. -/
theorem C11_liquidation_call_witness :
    processLog aaveSigs ⟨[aaveSigs.liquidationEventSig, 2 ^ 160 + 5, 6, 7], 7, 99⟩
      = .ok (some (.LiquidationCall 7 99 5 6 7)) :=
  C11_liquidation_call aaveSigs ⟨[aaveSigs.liquidationEventSig, 2 ^ 160 + 5, 6, 7], 7, 99⟩
    aaveSigs.liquidationEventSig (2 ^ 160 + 5) 6 7 rfl rfl (by decide) (by decide) (by decide)

/-- C12: a log whose first topic is none of the four signature hashes is
reported as Unknown, without a panic, whatever its other topics, block number
and transaction hash; and two logs with the same first topic, each with the
topics the case of that first topic reads (two for Supply, Borrow and Repay,
four for LiquidationCall, one otherwise), are both reported, with the same
variant. -/
theorem C12_variant_by_first_topic (sigs : EventSigs) (t0 : Nat) (rest : List Nat)
    (block tx : Nat)
    (hs : t0 ≠ sigs.supplyEventSig) (hb : t0 ≠ sigs.borrowEventSig)
    (hr : t0 ≠ sigs.repayEventSig) (hl : t0 ≠ sigs.liquidationEventSig)
    (t : Nat) (rest1 rest2 : List Nat) (block1 tx1 block2 tx2 : Nat)
    (h1 : requiredTopics sigs t ≤ (t :: rest1).length)
    (h2 : requiredTopics sigs t ≤ (t :: rest2).length) :
    processLog sigs ⟨t0 :: rest, block, tx⟩ = .ok (some (.Unknown t0)) ∧
    ∃ e1 e2,
      processLog sigs ⟨t :: rest1, block1, tx1⟩ = .ok (some e1) ∧
      processLog sigs ⟨t :: rest2, block2, tx2⟩ = .ok (some e2) ∧
      e1.variant = e2.variant := by
  constructor
  · unfold processLog
    simp only [hs, hb, hr, hl, if_false]
    rfl
  · obtain ⟨e1, p1, v1⟩ := processLog_variant sigs t rest1 block1 tx1 h1
    obtain ⟨e2, p2, v2⟩ := processLog_variant sigs t rest2 block2 tx2 h2
    exact ⟨e1, e2, p1, p2, by rw [v1, v2]⟩

/-- C12, an instance: with the hashes of the program, an unmatched first topic,
and two Supply logs of two and of three topics. -/
theorem C12_variant_by_first_topic_witness :
    processLog aaveSigs ⟨[5, 6], 1, 2⟩ = .ok (some (.Unknown 5)) ∧
    ∃ e1 e2,
      processLog aaveSigs ⟨[aaveSigs.supplyEventSig, 7], 3, 4⟩ = .ok (some e1) ∧
      processLog aaveSigs ⟨[aaveSigs.supplyEventSig, 8, 9], 5, 6⟩ = .ok (some e2) ∧
      e1.variant = e2.variant :=
  C12_variant_by_first_topic aaveSigs 5 [6] 1 2 (by decide) (by decide) (by decide) (by decide)
    aaveSigs.supplyEventSig [7] [8, 9] 3 4 5 6 (by decide) (by decide)

/-! ## C13, C14, C15: scenarios and the cycle duration -/

theorem levelsSent_str (tr : List Event) :
    (alertsSent tr).map (fun a => a.Level.str) = (levelsSent tr).map AlertLevel.str := by
  unfold levelsSent
  rw [List.map_map]
  rfl

/-- C13: with nonzero debt, raw health factor 1050000000000000000 scales to the
`float64` 1.05 and one cycle hands exactly one alert to `SendAlert`, of level
"WARNING"; raw health factor 950000000000000000 scales to the `float64` 0.95
and the one alert has level "CRITICAL"; a sink answering 200 under a live
context accepts each of them. -/
theorem C13_health_factor_scenarios (addr : String) (c : Bool) (s : SinkOutcome)
    (collateral debt : Int) (hdebt : debt ≠ 0) :
    hfValueOf 1050000000000000000 = F64.ofRatio 105 100 ∧
    (alertsSent (checkAndAlert [⟨addr, .ok ⟨collateral, debt, 1050000000000000000⟩, c, s⟩])).map
      (fun a => a.Level.str) = ["WARNING"] ∧
    hfValueOf 950000000000000000 = F64.ofRatio 95 100 ∧
    (alertsSent (checkAndAlert [⟨addr, .ok ⟨collateral, debt, 950000000000000000⟩, c, s⟩])).map
      (fun a => a.Level.str) = ["CRITICAL"] ∧
    (AlertOnLowHealthFactor false (.responds 200) addr (hfFloatOf 1050000000000000000)).result
      = .ok () ∧
    (AlertOnLowHealthFactor false (.responds 200) addr (hfFloatOf 950000000000000000)).result
      = .ok () := by
  refine ⟨by decide, ?_, by decide, ?_, ?_, ?_⟩
  · rw [levelsSent_str, checkAndAlert_single,
      levelsSent_checkOne _ ⟨collateral, debt, 1050000000000000000⟩ rfl hdebt
        1050000000000000000 rfl]
    decide
  · rw [levelsSent_str, checkAndAlert_single,
      levelsSent_checkOne _ ⟨collateral, debt, 950000000000000000⟩ rfl hdebt
        950000000000000000 rfl]
    decide
  · have h1 : ¬ ((hfFloatOf 1050000000000000000).Cmp (BigFloat.SetFloat64 (F64.ofRatio 1 1)) < 0) := by
      decide
    have h2 : (hfFloatOf 1050000000000000000).Cmp (BigFloat.SetFloat64 (F64.ofRatio 12 10)) < 0 := by
      decide
    unfold AlertOnLowHealthFactor
    simp only [h1, h2, if_false, if_true]
    rfl
  · have h1 : (hfFloatOf 950000000000000000).Cmp (BigFloat.SetFloat64 (F64.ofRatio 1 1)) < 0 := by
      decide
    unfold AlertOnLowHealthFactor
    simp only [h1, if_true]
    rfl

/-- C13, an instance: an account with a debt of one unit. -/
theorem C13_health_factor_scenarios_witness :
    (alertsSent (checkAndAlert
      [⟨"0xC", .ok ⟨3, 1, 1050000000000000000⟩, false, .responds 200⟩])).map
      (fun a => a.Level.str) = ["WARNING"] :=
  (C13_health_factor_scenarios "0xC" false (.responds 200) 3 1 (by decide)).2.1

/-- C14: with a limit of 60 minutes, a staleness of 90 minutes gets a WARNING
and one of 150 minutes a CRITICAL; and for every limit that is not negative
and whose double fits a signed 64-bit integer, the level is WARNING exactly
when `maxStaleness ≤ staleness ≤ 2 * maxStaleness` and CRITICAL exactly when
`staleness > 2 * maxStaleness`. -/
theorem C14_oracle_scenarios (c : Bool) (s : SinkOutcome) (feed : String)
    (staleness maxStaleness : Int) (h0 : 0 ≤ maxStaleness) (h1 : 2 * maxStaleness < 2 ^ 63) :
    (AlertOnOracleStaleness c s feed 5400000000000 3600000000000).level
      = some AlertLevel.AlertWarning ∧
    (AlertOnOracleStaleness c s feed 9000000000000 3600000000000).level
      = some AlertLevel.AlertCritical ∧
    ((AlertOnOracleStaleness c s feed staleness maxStaleness).level
        = some AlertLevel.AlertWarning ↔
      maxStaleness ≤ staleness ∧ staleness ≤ 2 * maxStaleness) ∧
    ((AlertOnOracleStaleness c s feed staleness maxStaleness).level
        = some AlertLevel.AlertCritical ↔
      2 * maxStaleness < staleness) := by
  have hw : wrap64 (2 * maxStaleness) = 2 * maxStaleness := by
    unfold wrap64
    norm_num at h1 ⊢
    omega
  refine ⟨by rw [oracle_level]; decide, by rw [oracle_level]; decide, ?_⟩
  rw [oracle_level, hw]
  by_cases ha : staleness < maxStaleness
  · rw [if_pos ha]
    exact ⟨⟨(fun h => by cases h), (fun h => by omega)⟩,
      ⟨(fun h => by cases h), (fun h => by omega)⟩⟩
  · rw [if_neg ha]
    by_cases hb : staleness > 2 * maxStaleness
    · rw [if_pos hb]
      exact ⟨⟨(fun h => by cases h), (fun h => by omega)⟩, ⟨(fun _ => by omega), fun _ => rfl⟩⟩
    · rw [if_neg hb]
      exact ⟨⟨(fun _ => by omega), fun _ => rfl⟩, ⟨(fun h => by cases h), (fun h => by omega)⟩⟩

/-- C14, an instance: a limit of one hour and a staleness of 150 minutes. -/
theorem C14_oracle_scenarios_witness :
    (AlertOnOracleStaleness false (.responds 200) "BTC/USD" 9000000000000 3600000000000).level
      = some AlertLevel.AlertCritical :=
  (C14_oracle_scenarios false (.responds 200) "BTC/USD" 9000000000000 3600000000000
    (by decide) (by decide)).2.2.2.2 (by decide)

theorem observations_append (xs ys : List Event) :
    observations (xs ++ ys) = observations xs + observations ys := by
  induction xs with
  | nil => simp [observations]
  | cons ev rest ih => cases ev <;> simp [observations, ih, Nat.add_right_comm]

theorem observations_monitorOne (url : String) (p : Probe) :
    observations (monitorOne url p) = 0 := by
  unfold monitorOne
  cases hf : p.fetch with
  | error e => simp [observations]
  | ok data =>
    simp only [observations, observations_append]
    split_ifs <;> simp [observations]

theorem observations_monitorLoop (url : String) (accts : List Probe) :
    observations (monitorLoop url accts) = 0 := by
  induction accts with
  | nil => rfl
  | cons p rest ih => simp [monitorLoop, observations_append, observations_monitorOne, ih]

/-- C15: whatever the list of accounts and whichever fetches fail, one
`monitorCycle` records exactly one observation of the cycle duration, and it
comes after the steps of every account: the loop, which fetches each address
of the list, records none, and only the closing log line follows it. -/
theorem C15_one_observation (webhookURL : String) (accts : List Probe) :
    observations (monitorCycle webhookURL accts) = 1 ∧
    (∃ pre post, monitorCycle webhookURL accts = pre ++ Event.observe :: post ∧
      fetches pre = accts.map Probe.addr ∧ observations pre = 0 ∧
      fetches post = [] ∧ observations post = 0) ∧
    observations (monitorCycle webhookURL
      (accts.map (fun p => ⟨p.addr, .error "rpc", p.ctxDone, p.sink⟩))) = 1 := by
  have h : ∀ l : List Probe, observations (monitorCycle webhookURL l) = 1 := by
    intro l
    unfold monitorCycle
    rw [observations_append, observations_monitorLoop]
    rfl
  refine ⟨h accts, ?_, h _⟩
  refine ⟨monitorLoop webhookURL accts, [Event.log .Info "Monitor cycle complete" ""], rfl,
    fetches_monitorLoop webhookURL accts, observations_monitorLoop webhookURL accts, rfl, rfl⟩

end LendingMonitor
